import Mathlib

/-!
# Verification of orbit-predictor core algorithms

A shallow embedding, in Lean 4, of the parts of the `orbit-predictor`
library that the specification talks about:

* the in-memory TLE source (`sources.py`),
* the Kepler-equation solver and anomaly conversions (`angles.py`),
* the shadow / illumination functions and eclipse duration (`utils.py`),
* the Sun-synchronous orbit constructor (`predictors/numerical.py`),
* the bracketed pass-search iterator (`predictors/base.py`).

Python `datetime` values are modelled as real numbers of seconds,
`timedelta` arithmetic as real arithmetic, and machine floats as real
numbers.  Fallible code returns `Except`; the unbounded Newton loop of
`M_to_E` is modelled with an explicit fuel argument (`none` meaning that
the loop is still running after the given number of iterations).
-/

open Real Classical

noncomputable section

namespace OrbitPredictor

/-! ## In-memory TLE source (`sources.py`)

`MemoryTLESource` keeps `self.tles = defaultdict(set)`, a mapping from
satellite id to a set of `(epoch, tle_lines)` pairs.  We model the
dictionary as an association list in iteration order and the per-satellite
set as a list of pairs in iteration order; epochs and query dates are
rationals (seconds), and the TLE lines have an abstract type `α`. -/

/-- The namedtuple `TLE(sate_id, lines, date)` from `sources.py`. -/
structure TLE (α : Type) where
  sate_id : ℕ
  lines : α
  date : ℚ
  deriving DecidableEq

/-- The state of `MemoryTLESource`: the `tles` dictionary. -/
abbrev TLEStore (α : Type) : Type := List (ℕ × List (ℚ × α))

/-- Plain dictionary lookup (no default insertion). -/
def assoc_find {α : Type} : TLEStore α → ℕ → Option (List (ℚ × α))
  | [], _ => none
  | (k, v) :: rest, sate_id => if k = sate_id then some v else assoc_find rest sate_id

/-- `self.tles[sate_id]` on a `defaultdict(set)`: returns the stored
entries together with the dictionary after the access.  Python's
`defaultdict.__getitem__` inserts an empty set when the key is missing. -/
def dd_getitem {α : Type} (store : TLEStore α) (sate_id : ℕ) :
    List (ℚ × α) × TLEStore α :=
  match assoc_find store sate_id with
  | some v => (v, store)
  | none => ([], store ++ [(sate_id, [])])

/-- The `for epoch, candidate in candidates` loop of
`MemoryTLESource._get_tle`: keeps the first candidate whose absolute time
difference to `date` is strictly smaller than the best one so far.  The
accumulator `none` models `winner = None; winner_dt = float("inf")`. -/
def tle_fold {α : Type} (date : ℚ) : List (ℚ × α) → Option (ℚ × α) → Option (ℚ × α)
  | [], acc => acc
  | (epoch, candidate) :: rest, acc =>
    let c_dt := |epoch - date|
    match acc with
    | none => tle_fold date rest (some (c_dt, candidate))
    | some (winner_dt, winner) =>
      if c_dt < winner_dt then tle_fold date rest (some (c_dt, candidate))
      else tle_fold date rest (some (winner_dt, winner))

/-- `MemoryTLESource._get_tle`: returns the winning lines or a
`LookupError`, together with the state of the source after the call. -/
def _get_tle {α : Type} (store : TLEStore α) (sate_id : ℕ) (date : ℚ) :
    Except Unit α × TLEStore α :=
  let res := dd_getitem store sate_id
  match tle_fold date res.1 none with
  | none => (.error (), res.2)
  | some (_, winner) => (.ok winner, res.2)

/-- `TLESource.get_tle`: wraps the lines from `_get_tle` into a `TLE`
record `TLE(sate_id=sate_id, date=date, lines=lines)`. -/
def get_tle {α : Type} (store : TLEStore α) (sate_id : ℕ) (date : ℚ) :
    Except Unit (TLE α) × TLEStore α :=
  match _get_tle store sate_id date with
  | (.error e, s) => (.error e, s)
  | (.ok lines, s) => (.ok ⟨sate_id, lines, date⟩, s)

/-- Invariant of the winner-selection loop: the result is an entry of the
input (or the initial accumulator) achieving the minimum distance. -/
theorem tle_fold_spec {α : Type} (date : ℚ) (l : List (ℚ × α))
    (acc : Option (ℚ × α)) :
    (tle_fold date l acc = none → l = [] ∧ acc = none) ∧
    (∀ d w, tle_fold date l acc = some (d, w) →
      ((∃ p ∈ l, d = |p.1 - date| ∧ w = p.2) ∨ acc = some (d, w)) ∧
      (∀ q ∈ l, d ≤ |q.1 - date|) ∧
      (∀ d0 w0, acc = some (d0, w0) → d ≤ d0)) := by
  induction l generalizing acc with
  | nil =>
    refine ⟨fun h => ⟨rfl, h⟩, ?_⟩
    intro d w h
    simp only [tle_fold] at h
    exact ⟨Or.inr h, by simp, fun d0 w0 h0 => by rw [h0] at h; injection h with h1; injection h1 with h2 _; exact le_of_eq h2.symm⟩
  | cons p rest ih =>
    obtain ⟨epoch, candidate⟩ := p
    constructor
    · intro h
      cases acc with
      | none =>
        simp only [tle_fold] at h
        exact absurd ((ih _).1 h).2 (by simp)
      | some a =>
        obtain ⟨wd, wv⟩ := a
        simp only [tle_fold] at h
        by_cases hlt : |epoch - date| < wd
        · rw [if_pos hlt] at h
          exact absurd ((ih _).1 h).2 (by simp)
        · rw [if_neg hlt] at h
          exact absurd ((ih _).1 h).2 (by simp)
    · intro d w h
      cases acc with
      | none =>
        simp only [tle_fold] at h
        obtain ⟨hmem, hmin, hacc⟩ := (ih _).2 d w h
        refine ⟨?_, ?_, by intro d0 w0 h0; cases h0⟩
        · rcases hmem with ⟨q, hq, hdq, hwq⟩ | heq
          · exact Or.inl ⟨q, List.mem_cons_of_mem _ hq, hdq, hwq⟩
          · injection heq with h1
            injection h1 with h2 h3
            exact Or.inl ⟨(epoch, candidate), List.mem_cons_self _ _, h2.symm, h3.symm⟩
        · intro q hq
          rcases List.mem_cons.mp hq with rfl | hq'
          · exact hacc _ _ rfl
          · exact hmin q hq'
      | some a =>
        obtain ⟨wd, wv⟩ := a
        simp only [tle_fold] at h
        by_cases hlt : |epoch - date| < wd
        · rw [if_pos hlt] at h
          obtain ⟨hmem, hmin, hacc⟩ := (ih _).2 d w h
          have hdwd : d ≤ |epoch - date| := hacc _ _ rfl
          refine ⟨?_, ?_, ?_⟩
          · rcases hmem with ⟨q, hq, hdq, hwq⟩ | heq
            · exact Or.inl ⟨q, List.mem_cons_of_mem _ hq, hdq, hwq⟩
            · injection heq with h1
              injection h1 with h2 h3
              exact Or.inl ⟨(epoch, candidate), List.mem_cons_self _ _, h2.symm, h3.symm⟩
          · intro q hq
            rcases List.mem_cons.mp hq with rfl | hq'
            · exact hdwd
            · exact hmin q hq'
          · intro d0 w0 h0
            injection h0 with h1
            injection h1 with h2 _
            exact le_trans hdwd (le_of_lt (h2 ▸ hlt))
        · rw [if_neg hlt] at h
          obtain ⟨hmem, hmin, hacc⟩ := (ih _).2 d w h
          have hdwd : d ≤ wd := hacc _ _ rfl
          refine ⟨?_, ?_, ?_⟩
          · rcases hmem with ⟨q, hq, hdq, hwq⟩ | heq
            · exact Or.inl ⟨q, List.mem_cons_of_mem _ hq, hdq, hwq⟩
            · exact Or.inr heq
          · intro q hq
            rcases List.mem_cons.mp hq with rfl | hq'
            · exact le_trans hdwd (not_lt.mp hlt)
            · exact hmin q hq'
          · intro d0 w0 h0
            injection h0 with h1
            injection h1 with h2 _
            exact h2 ▸ hdwd

/-- The nonempty case of the fold always produces a winner. -/
theorem tle_fold_ne_none {α : Type} (date : ℚ) (l : List (ℚ × α))
    (hl : l ≠ []) : tle_fold date l none ≠ none := by
  intro h
  exact hl ((tle_fold_spec date l none).1 h).1

/-- C10 (amended).  `MemoryTLESource.get_tle` returns a `TLE` whose lines
are those of a stored entry minimizing `|epoch - date|`, leaving the
stored entries unchanged; when no entry is stored it raises `LookupError`,
and, if the satellite id was not present at all, the `defaultdict` lookup
additionally inserts an empty entry set for that id (so the source's state
is not unchanged in that case). -/
theorem memory_tle_get {α : Type} (store : TLEStore α) (sid : ℕ) (date : ℚ) :
    (∀ entries, assoc_find store sid = some entries →
      (entries = [] → get_tle store sid date = (.error (), store)) ∧
      (entries ≠ [] → ∃ p ∈ entries,
        get_tle store sid date = (.ok ⟨sid, p.2, date⟩, store) ∧
        ∀ q ∈ entries, |p.1 - date| ≤ |q.1 - date|)) ∧
    (assoc_find store sid = none →
      get_tle store sid date = (.error (), store ++ [(sid, [])])) := by
  constructor
  · intro entries hfound
    constructor
    · intro hempty
      subst hempty
      simp only [get_tle, _get_tle, dd_getitem, hfound, tle_fold]
    · intro hne
      rcases hfold : tle_fold date entries none with _ | ⟨d, w⟩
      · exact absurd hfold (tle_fold_ne_none date entries hne)
      · obtain ⟨hmem, hmin, _⟩ := (tle_fold_spec date entries none).2 d w hfold
        rcases hmem with ⟨p, hp, hdp, hwp⟩ | heq
        · refine ⟨p, hp, ?_, fun q hq => hdp ▸ hmin q hq⟩
          simp only [get_tle, _get_tle, dd_getitem, hfound, hfold, hwp]
        · cases heq
  · intro hnone
    simp only [get_tle, _get_tle, dd_getitem, hnone, tle_fold]

/-- C10 witness: a concrete two-entry store where the second entry is
closer to the requested date and therefore wins. -/
theorem memory_tle_get_witness :
    assoc_find ([(7, [(10, 100), (3, 200)])] : TLEStore ℕ) 7
        = some [(10, 100), (3, 200)] ∧
    ([(10, 100), (3, 200)] : List (ℚ × ℕ)) ≠ [] ∧
    ∃ p ∈ ([(10, 100), (3, 200)] : List (ℚ × ℕ)),
      get_tle ([(7, [(10, 100), (3, 200)])] : TLEStore ℕ) 7 4
          = (.ok ⟨7, p.2, 4⟩, [(7, [(10, 100), (3, 200)])]) ∧
      ∀ q ∈ ([(10, 100), (3, 200)] : List (ℚ × ℕ)), |p.1 - 4| ≤ |q.1 - 4| :=
  ⟨by rfl, by simp,
    ((memory_tle_get ([(7, [(10, 100), (3, 200)])] : TLEStore ℕ) 7 4).1
      [(10, 100), (3, 200)] (by rfl)).2 (by simp)⟩

/-- C10 counterexample: querying an id that has no stored entries raises
`LookupError`, but the state is changed because the `defaultdict` lookup
inserts an empty entry set for the missing id. -/
theorem memory_tle_state_counterexample :
    _get_tle ([] : TLEStore ℕ) 7 0 = (.error (), [(7, [])]) ∧
    ([(7, [])] : TLEStore ℕ) ≠ ([] : TLEStore ℕ) := by
  constructor
  · rfl
  · intro h
    cases h

/-! ## Angles and the Kepler solver (`angles.py`) -/

/-- `_kepler_equation(E, M, ecc) = E - ecc * sin(E) - M`. -/
def _kepler_equation (E M ecc : ℝ) : ℝ := E - ecc * Real.sin E - M

/-- `ta_to_E`: eccentric anomaly from true anomaly, half-angle tangent
form with `atan` (not `atan2`). -/
def ta_to_E (ta ecc : ℝ) : ℝ :=
  2 * Real.arctan (Real.sqrt ((1 - ecc) / (1 + ecc)) * Real.tan (ta / 2))

/-- `E_to_ta`: true anomaly from eccentric anomaly. -/
def E_to_ta (E ecc : ℝ) : ℝ :=
  2 * Real.arctan (Real.sqrt ((1 + ecc) / (1 - ecc)) * Real.tan (E / 2))

/-- `E_to_M(E, ecc) = _kepler_equation(E, 0.0, ecc)`. -/
def E_to_M (E ecc : ℝ) : ℝ := _kepler_equation E 0 ecc

/-- `ta_to_M`: mean anomaly from true anomaly. -/
def ta_to_M (ta ecc : ℝ) : ℝ := E_to_M (ta_to_E ta ecc) ecc

/-- One update `E_new = E + (M - E + ecc*sin(E)) / (1 - ecc*cos(E))` of the
Newton loop in `M_to_E`. -/
def M_to_E_update (M ecc E : ℝ) : ℝ :=
  E + (M - E + ecc * Real.sin E) / (1 - ecc * Real.cos E)

/-- The `while True` Newton loop of `M_to_E` with explicit fuel: `none`
means the loop is still running after the given number of iterations.
The body computes `E_new` and stops exactly when `E_new == E` or
`abs((E_new - E) / E) < 1e-15`, returning `E_new`; otherwise it continues
from `E_new`.  The source has no other exit from the loop. -/
def M_to_E_go (M ecc : ℝ) : ℕ → ℝ → Option ℝ
  | 0, _ => none
  | n + 1, E =>
    let E_new := M_to_E_update M ecc E
    if E_new = E ∨ |(E_new - E) / E| < 1e-15 then some E_new
    else M_to_E_go M ecc n E_new

/-- `M_to_E(M, ecc)`: the Newton iteration started from `E = M`. -/
def M_to_E (M ecc : ℝ) (fuel : ℕ) : Option ℝ := M_to_E_go M ecc fuel M

/-- `M_to_ta`: true anomaly from mean anomaly (through the Newton solver). -/
def M_to_ta (M ecc : ℝ) (fuel : ℕ) : Option ℝ :=
  (M_to_E M ecc fuel).map (fun E => E_to_ta E ecc)

/-- There is an eccentricity in `(π/2, π)` at which the Newton map for
`M = π/2` has an exact 2-cycle through the starting point: the root of
`cos x + x sin x = 0` on that interval (intermediate value theorem). -/
lemma exists_cycle_ecc : ∃ x, π / 2 < x ∧ x < π ∧ Real.cos x + x * Real.sin x = 0 := by
  have hπ : (0:ℝ) < π := Real.pi_pos
  have hcont : ContinuousOn (fun x : ℝ => Real.cos x + x * Real.sin x)
      (Set.Icc (π/2) π) :=
    (Real.continuous_cos.add (continuous_id.mul Real.continuous_sin)).continuousOn
  have hab : π/2 ≤ π := by linarith
  have himage := intermediate_value_Icc' hab hcont
  have hmem : (0:ℝ) ∈ Set.Icc (Real.cos π + π * Real.sin π)
      (Real.cos (π/2) + π/2 * Real.sin (π/2)) := by
    rw [Real.cos_pi, Real.sin_pi, Real.cos_pi_div_two, Real.sin_pi_div_two]
    refine ⟨by norm_num, by positivity⟩
  obtain ⟨c, hcmem, hfc⟩ := himage hmem
  have hfc' : Real.cos c + c * Real.sin c = 0 := hfc
  refine ⟨c, ?_, ?_, hfc'⟩
  · rcases lt_or_eq_of_le hcmem.1 with h | h
    · exact h
    · exfalso
      rw [← h] at hfc'
      rw [Real.cos_pi_div_two, Real.sin_pi_div_two] at hfc'
      simp at hfc'
      linarith
  · rcases lt_or_eq_of_le hcmem.2 with h | h
    · exact h
    · exfalso
      rw [h] at hfc'
      rw [Real.cos_pi, Real.sin_pi] at hfc'
      simp at hfc'

/-- At a cycle eccentricity, the Newton loop started at `π/2` alternates
between `π/2` and `π/2 + x` forever: the stopping test never holds. -/
lemma newton_cycle_no_stop (x : ℝ) (h1 : π/2 < x) (h2 : x < π)
    (hx : Real.cos x + x * Real.sin x = 0) :
    ∀ n, M_to_E_go (π/2) x n (π/2) = none ∧ M_to_E_go (π/2) x n (π/2 + x) = none := by
  have hπ : (0:ℝ) < π := Real.pi_pos
  have hπlt : π < 3.15 := by
    have := Real.pi_lt_d2
    linarith
  have hx0 : 0 < x := by linarith
  have hcosx : Real.cos x < 1 := by
    have h0 : Real.cos x < 0 := Real.cos_neg_of_pi_div_two_lt_of_lt h1 (by linarith)
    linarith
  have hupd1 : M_to_E_update (π/2) x (π/2) = π/2 + x := by
    simp [M_to_E_update, Real.sin_pi_div_two, Real.cos_pi_div_two]
  have hupd2 : M_to_E_update (π/2) x (π/2 + x) = π/2 := by
    unfold M_to_E_update
    rw [show π/2 + x = x + π/2 by ring, Real.sin_add_pi_div_two, Real.cos_add_pi_div_two]
    have hxs : x * Real.sin x = -Real.cos x := by linarith
    rw [show 1 - x * -Real.sin x = 1 + x * Real.sin x by ring, hxs]
    have hden : (1:ℝ) + -Real.cos x ≠ 0 := by
      intro h
      have : Real.cos x = 1 := by linarith
      linarith
    field_simp
    ring
  have hcond1 : ¬ (π/2 + x = π/2 ∨ |(π/2 + x - π/2) / (π/2)| < 1e-15) := by
    push_neg
    constructor
    · intro h
      have : x = 0 := by linarith
      linarith
    · rw [show π/2 + x - π/2 = x by ring]
      rw [abs_of_pos (by positivity)]
      rw [le_div_iff₀ (by positivity)]
      nlinarith
  have hcond2 : ¬ (π/2 = π/2 + x ∨ |(π/2 - (π/2 + x)) / (π/2 + x)| < 1e-15) := by
    push_neg
    constructor
    · intro h
      have : x = 0 := by linarith
      linarith
    · rw [show π/2 - (π/2 + x) = -x by ring, neg_div, abs_neg]
      rw [abs_of_pos (by positivity)]
      rw [le_div_iff₀ (by positivity)]
      nlinarith
  intro n
  induction n with
  | zero => exact ⟨rfl, rfl⟩
  | succ n ih =>
    constructor
    · show M_to_E_go (π/2) x (n+1) (π/2) = none
      simp only [M_to_E_go, hupd1]
      rw [if_neg hcond1]
      exact ih.2
    · show M_to_E_go (π/2) x (n+1) (π/2 + x) = none
      simp only [M_to_E_go, hupd2]
      rw [if_neg hcond2]
      exact ih.1

/-- C6 counterexample.  The claim says `M_to_E` performs at most 50
iterations and raises `ConvergenceError` when the stopping test has not
been met by then.  The source has no iteration cap and defines no
`ConvergenceError`: were the claim true, every input would have to leave
the loop within 50 iterations.  At `M = π/2` with the cycle eccentricity
the loop is still running after 50 iterations (indeed after any number),
with no error raised. -/
theorem kepler_cap_counterexample :
    ¬ ∀ M ecc : ℝ, (M_to_E M ecc 50).isSome = true := by
  intro h
  obtain ⟨x, h1, h2, hx⟩ := exists_cycle_ecc
  have h50 := h (π/2) x
  rw [M_to_E, (newton_cycle_no_stop x h1 h2 hx 50).1] at h50
  exact Bool.false_ne_true h50

/-- C6 (amended).  The Newton loop of `M_to_E` has no iteration cap and
never raises any convergence error (the source defines none): it runs
until the stopping test (`E_new == E` or relative change below `1e-15`)
holds, and there are inputs - here `M = π/2` with an eccentricity in
`(π/2, π)` - on which the test never holds, so the loop runs beyond every
bound (in particular beyond 50 iterations). -/
theorem kepler_no_iteration_cap :
    ∃ ecc, π/2 < ecc ∧ ecc < π ∧ ∀ fuel, M_to_E (π/2) ecc fuel = none := by
  obtain ⟨x, h1, h2, hx⟩ := exists_cycle_ecc
  exact ⟨x, h1, h2, fun fuel => (newton_cycle_no_stop x h1 h2 hx fuel).1⟩

/-- The half-angle round-trip collapses to `2 * arctan (tan (ν/2))`. -/
lemma E_to_ta_ta_to_E (e ν : ℝ) (he0 : 0 ≤ e) (he1 : e < 1)
    (hν0 : 0 ≤ ν) (hν2 : ν < 2*π) (hνπ : ν ≠ π) :
    E_to_ta (ta_to_E ν e) e = if ν < π then ν else ν - 2*π := by
  have hπ : (0:ℝ) < π := Real.pi_pos
  have h1e : (0:ℝ) < 1 + e := by linarith
  have h1e' : (0:ℝ) < 1 - e := by linarith
  have hprod : Real.sqrt ((1 + e)/(1 - e)) * Real.sqrt ((1 - e)/(1 + e)) = 1 := by
    rw [← Real.sqrt_mul (by positivity)]
    rw [show (1 + e)/(1 - e) * ((1 - e)/(1 + e)) = 1 by field_simp]
    exact Real.sqrt_one
  have key : E_to_ta (ta_to_E ν e) e = 2 * Real.arctan (Real.tan (ν/2)) := by
    unfold E_to_ta ta_to_E
    rw [show 2 * Real.arctan (Real.sqrt ((1 - e)/(1 + e)) * Real.tan (ν / 2)) / 2
          = Real.arctan (Real.sqrt ((1 - e)/(1 + e)) * Real.tan (ν / 2)) by ring]
    rw [Real.tan_arctan]
    rw [show Real.sqrt ((1 + e)/(1 - e)) * (Real.sqrt ((1 - e)/(1 + e)) * Real.tan (ν / 2))
          = Real.sqrt ((1 + e)/(1 - e)) * Real.sqrt ((1 - e)/(1 + e)) * Real.tan (ν / 2) by
        ring]
    rw [hprod, one_mul]
  rw [key]
  by_cases hlt : ν < π
  · rw [if_pos hlt]
    rw [Real.arctan_tan (by linarith) (by linarith)]
    ring
  · rw [if_neg hlt]
    push_neg at hlt
    have hgt : π < ν := lt_of_le_of_ne hlt (Ne.symm hνπ)
    have hshift : Real.tan (ν/2) = Real.tan (ν/2 - π) := (Real.tan_periodic.sub_eq _).symm
    rw [hshift, Real.arctan_tan (by linarith) (by linarith)]
    ring

/-- `E - e sin E` is strictly monotone for `0 ≤ e < 1`, hence the exact
solution of Kepler's equation is unique. -/
lemma kepler_strictMono (e : ℝ) (he0 : 0 ≤ e) (he1 : e < 1) :
    StrictMono (fun E : ℝ => E - e * Real.sin E) := by
  apply strictMono_of_deriv_pos
  intro x
  have hderiv : HasDerivAt (fun E : ℝ => E - e * Real.sin E)
      (1 - e * Real.cos x) x :=
    (hasDerivAt_id x).sub ((Real.hasDerivAt_sin x).const_mul e)
  rw [hderiv.deriv]
  nlinarith [Real.neg_one_le_cos x, Real.cos_le_one x]

/-- C7 (amended).  For `0 ≤ e < 1` and `ν ∈ [0, 2π)` with `ν ≠ π`, the
anomaly conversions round-trip modulo `2π`, but the results are NOT
normalized into `[0, 2π)`: `E_to_ta (ta_to_E ν e) e` equals `ν` for
`ν < π` and `ν - 2π` for `ν > π`.  Likewise, recovering the eccentric
anomaly from `ta_to_M ν e` by exactly solving Kepler's equation (the
limit of the `M_to_E` Newton iteration) and applying `E_to_ta` gives the
same value, again `ν` only modulo `2π`. -/
theorem anomaly_roundtrip_amended (e ν : ℝ) (he0 : 0 ≤ e) (he1 : e < 1)
    (hν0 : 0 ≤ ν) (hν2 : ν < 2*π) (hνπ : ν ≠ π) :
    E_to_ta (ta_to_E ν e) e = (if ν < π then ν else ν - 2*π) ∧
    ∀ E : ℝ, E - e * Real.sin E = ta_to_M ν e →
      E_to_ta E e = (if ν < π then ν else ν - 2*π) := by
  refine ⟨E_to_ta_ta_to_E e ν he0 he1 hν0 hν2 hνπ, ?_⟩
  intro E hE
  have hEeq : E = ta_to_E ν e := by
    apply (kepler_strictMono e he0 he1).injective
    show E - e * Real.sin E = ta_to_E ν e - e * Real.sin (ta_to_E ν e)
    rw [hE]
    unfold ta_to_M E_to_M _kepler_equation
    ring
  rw [hEeq]
  exact E_to_ta_ta_to_E e ν he0 he1 hν0 hν2 hνπ

/-- C7 witness: the round-trip theorem applied at `ν = π/2`, `e = 1/2`. -/
theorem anomaly_roundtrip_witness :
    (0:ℝ) ≤ 1/2 ∧ (1/2:ℝ) < 1 ∧ (0:ℝ) ≤ π/2 ∧ π/2 < 2*π ∧ π/2 ≠ π ∧
    (E_to_ta (ta_to_E (π/2) (1/2)) (1/2) = (if π/2 < π then π/2 else π/2 - 2*π) ∧
     ∀ E : ℝ, E - 1/2 * Real.sin E = ta_to_M (π/2) (1/2) →
       E_to_ta E (1/2) = (if π/2 < π then π/2 else π/2 - 2*π)) := by
  have hπ : (0:ℝ) < π := Real.pi_pos
  exact ⟨by norm_num, by norm_num, by positivity, by linarith,
    fun h => by linarith [h],
    anomaly_roundtrip_amended (1/2) (π/2) (by norm_num) (by norm_num)
      (by positivity) (by linarith) (fun h => by linarith [h])⟩

/-- C7 counterexample.  At `ν = 3π/2` and `e = 0` the round-trip
`E_to_ta (ta_to_E ν e) e` returns `-π/2`, not the normalized value
`3π/2` claimed: the code never normalizes into `[0, 2π)`. -/
theorem anomaly_roundtrip_counterexample :
    E_to_ta (ta_to_E (3*π/2) 0) 0 = -(π/2) ∧ -(π/2) ≠ 3*π/2 := by
  have hπ : (0:ℝ) < π := Real.pi_pos
  have htan34 : Real.tan (3*π/4) = -1 := by
    have h34 : (3:ℝ)*π/4 = -(π/4) + π := by ring
    rw [h34, Real.tan_periodic (-(π/4)), Real.tan_neg, Real.tan_pi_div_four]
  have hta : ta_to_E (3*π/2) 0 = -(π/2) := by
    unfold ta_to_E
    rw [show (3*π/2)/2 = 3*π/4 by ring, htan34]
    norm_num [Real.arctan_one]
    ring
  constructor
  · rw [hta]
    unfold E_to_ta
    rw [show (-(π/2))/2 = -(π/4) by ring, Real.tan_neg, Real.tan_pi_div_four]
    norm_num [Real.arctan_one]
    ring
  · intro h
    nlinarith

/-! ## Vectors, angles and constants (`utils.py`, `constants.py`) -/

/-- Three-component vectors (Python tuples / numpy arrays of length 3). -/
abbrev Vec3 : Type := ℝ × ℝ × ℝ

/-- `dot_product(a, b)` from `utils.py`. -/
def dot_product (a b : Vec3) : ℝ := a.1 * b.1 + a.2.1 * b.2.1 + a.2.2 * b.2.2

/-- `vector_norm(a) = euclidean_distance(*a)` from `utils.py`. -/
def vector_norm (a : Vec3) : ℝ := Real.sqrt (a.1 ^ 2 + a.2.1 ^ 2 + a.2.2 ^ 2)

/-- Vector negation (`-r_sun` inside `shadow`). -/
def vneg (a : Vec3) : Vec3 := (-a.1, -a.2.1, -a.2.2)

/-- Scalar multiplication (`get_sun(when_utc) * AU`). -/
def smul3 (c : ℝ) (a : Vec3) : Vec3 := (c * a.1, c * a.2.1, c * a.2.2)

/-- `math.radians`. -/
def radians (x : ℝ) : ℝ := x * π / 180

/-- `math.degrees`. -/
def degrees (x : ℝ) : ℝ := x * 180 / π

/-- `cos_d = compose(cos, radians)`. -/
def cos_d (x : ℝ) : ℝ := Real.cos (radians x)

/-- `sin_d = compose(sin, radians)`. -/
def sin_d (x : ℝ) : ℝ := Real.sin (radians x)

/-- `angle_between(a, b)`: the angle between two vectors, in degrees. -/
def angle_between (a b : Vec3) : ℝ :=
  degrees (Real.arccos (dot_product a b / (vector_norm a * vector_norm b)))

/-- `constants.AU`, km. -/
def AU : ℝ := 149597870.700

/-- `constants.MU_E = wgs84.mu`, km³/s². -/
def MU_E : ℝ := 398600.5

/-- `constants.R_E_KM = wgs84.radiusearthkm`, km. -/
def R_E_KM : ℝ := 6378.137

/-- `constants.R_E_MEAN_KM`, km. -/
def R_E_MEAN_KM : ℝ := 6371.0087714

/-- `constants.J2 = wgs84.j2`. -/
def J2 : ℝ := 0.00108262998905

/-- `constants.OMEGA = 2π / (86400 · 365.2421897)`, rad/s. -/
def OMEGA : ℝ := 2 * π / (86400 * 365.2421897)

/-- `constants.ALPHA_UMB = radians(0.264121687)`. -/
def ALPHA_UMB : ℝ := radians 0.264121687

/-- `constants.ALPHA_PEN = radians(0.269007205)`. -/
def ALPHA_PEN : ℝ := radians 0.269007205

/-! ## Shadow classification (`utils.shadow`, Vallado algorithm 34) -/

/-- `sat_horiz = vector_norm(r) * cos_d(angle)` with
`angle = angle_between(-r_sun, r)`. -/
def sat_horiz (r_sun r : Vec3) : ℝ :=
  vector_norm r * cos_d (angle_between (vneg r_sun) r)

/-- `sat_vert = vector_norm(r) * sin_d(angle)`. -/
def sat_vert (r_sun r : Vec3) : ℝ :=
  vector_norm r * sin_d (angle_between (vneg r_sun) r)

/-- `pen_vert = tan(ALPHA_PEN) * (r_p / sin(ALPHA_PEN) + sat_horiz)`. -/
def pen_vert (r_sun r : Vec3) (r_p : ℝ) : ℝ :=
  Real.tan ALPHA_PEN * (r_p / Real.sin ALPHA_PEN + sat_horiz r_sun r)

/-- `umb_vert = tan(ALPHA_UMB) * (r_p / sin(ALPHA_UMB) - sat_horiz)`. -/
def umb_vert (r_sun r : Vec3) (r_p : ℝ) : ℝ :=
  Real.tan ALPHA_UMB * (r_p / Real.sin ALPHA_UMB - sat_horiz r_sun r)

/-- `utils.shadow(r_sun, r, r_p)`: 2 for illuminated, 1 for penumbra,
0 for umbra.  `shadow_result` starts at 2 and is overwritten only when
`dot(r_sun, r) < 0` and `sat_vert <= pen_vert`. -/
def shadow (r_sun r : Vec3) (r_p : ℝ) : ℕ :=
  if dot_product r_sun r < 0 then
    if sat_vert r_sun r ≤ pen_vert r_sun r r_p then
      if sat_vert r_sun r ≤ umb_vert r_sun r r_p then 0 else 1
    else 2
  else 2

/-- C4.  The discrete shadow classifier returns LIT (2) exactly when
`r_sun · r ≥ 0` or `sat_vert > pen_vert`; when `r_sun · r < 0` and
`sat_vert ≤ pen_vert` it returns UMBRA (0) if `sat_vert ≤ umb_vert` and
PENUMBRA (1) otherwise, with `sat_horiz`, `sat_vert`, `pen_vert` and
`umb_vert` given by the cone formulas of the claim. -/
theorem shadow_classification (r_sun r : Vec3) (r_p : ℝ) :
    (shadow r_sun r r_p = 2 ↔
      (0 ≤ dot_product r_sun r ∨ pen_vert r_sun r r_p < sat_vert r_sun r)) ∧
    (dot_product r_sun r < 0 → sat_vert r_sun r ≤ pen_vert r_sun r r_p →
      shadow r_sun r r_p =
        if sat_vert r_sun r ≤ umb_vert r_sun r r_p then 0 else 1) := by
  constructor
  · constructor
    · intro h2
      by_contra hcon
      push_neg at hcon
      obtain ⟨hd, hsv⟩ := hcon
      unfold shadow at h2
      rw [if_pos hd, if_pos hsv] at h2
      by_cases h3 : sat_vert r_sun r ≤ umb_vert r_sun r r_p
      · rw [if_pos h3] at h2
        exact absurd h2 (by norm_num)
      · rw [if_neg h3] at h2
        exact absurd h2 (by norm_num)
    · intro h
      unfold shadow
      rcases h with h | h
      · rw [if_neg (not_lt.mpr h)]
      · by_cases hd : dot_product r_sun r < 0
        · rw [if_pos hd, if_neg (not_le.mpr h)]
        · rw [if_neg hd]
  · intro h1 h2
    unfold shadow
    rw [if_pos h1, if_pos h2]

/-- `ALPHA_PEN` lies in `(0, π/2)`. -/
lemma alpha_pen_mem : 0 < ALPHA_PEN ∧ ALPHA_PEN < π/2 := by
  unfold ALPHA_PEN radians
  constructor
  · positivity
  · nlinarith [Real.pi_pos]

/-- `ALPHA_UMB` lies in `(0, π/2)`. -/
lemma alpha_umb_mem : 0 < ALPHA_UMB ∧ ALPHA_UMB < π/2 := by
  unfold ALPHA_UMB radians
  constructor
  · positivity
  · nlinarith [Real.pi_pos]

/-- `sin ALPHA_PEN` is positive. -/
lemma sin_alpha_pen_pos : 0 < Real.sin ALPHA_PEN :=
  Real.sin_pos_of_pos_of_lt_pi alpha_pen_mem.1
    (lt_trans alpha_pen_mem.2 (by linarith [Real.pi_pos]))

/-- `tan ALPHA_PEN` is positive. -/
lemma tan_alpha_pen_pos : 0 < Real.tan ALPHA_PEN :=
  Real.tan_pos_of_pos_of_lt_pi_div_two alpha_pen_mem.1 alpha_pen_mem.2

/-- `sin ALPHA_UMB` is positive. -/
lemma sin_alpha_umb_pos : 0 < Real.sin ALPHA_UMB :=
  Real.sin_pos_of_pos_of_lt_pi alpha_umb_mem.1
    (lt_trans alpha_umb_mem.2 (by linarith [Real.pi_pos]))

/-- `tan ALPHA_UMB` is positive. -/
lemma tan_alpha_umb_pos : 0 < Real.tan ALPHA_UMB :=
  Real.tan_pos_of_pos_of_lt_pi_div_two alpha_umb_mem.1 alpha_umb_mem.2

/-- `sin ALPHA_UMB` is tiny (below 0.005). -/
lemma sin_alpha_umb_small : Real.sin ALPHA_UMB < 0.005 := by
  have h1 : Real.sin ALPHA_UMB < ALPHA_UMB := Real.sin_lt alpha_umb_mem.1
  have h2 : ALPHA_UMB < 0.005 := by
    unfold ALPHA_UMB radians
    nlinarith [Real.pi_lt_d2, Real.pi_pos]
  linarith

/-- The sample point for the shadow witness: the Sun along `+x` and the
satellite at 7000 km straight behind the Earth.  The angle between
`-r_sun` and `r` is 0 degrees. -/
lemma angle_between_example :
    angle_between (vneg ((1:ℝ), 0, 0)) ((-7000:ℝ), 0, 0) = 0 := by
  have hna : vector_norm (vneg ((1:ℝ), 0, 0)) = 1 := by
    show Real.sqrt ((-1:ℝ)^2 + (-0:ℝ)^2 + (-0:ℝ)^2) = 1
    norm_num
  have hnb : vector_norm ((-7000:ℝ), 0, 0) = 7000 := by
    show Real.sqrt ((-7000:ℝ)^2 + (0:ℝ)^2 + (0:ℝ)^2) = 7000
    rw [show ((-7000:ℝ)^2 + (0:ℝ)^2 + (0:ℝ)^2) = 7000^2 by norm_num]
    exact Real.sqrt_sq (by norm_num)
  unfold angle_between
  rw [hna, hnb]
  rw [show dot_product (vneg ((1:ℝ), 0, 0)) ((-7000:ℝ), 0, 0) = 7000 by
    unfold dot_product vneg; norm_num]
  rw [show (7000:ℝ) / (1 * 7000) = 1 by norm_num]
  rw [Real.arccos_one]
  unfold degrees
  ring

/-- At the sample point `sat_horiz = 7000` and `sat_vert = 0`. -/
lemma sat_verticals_example :
    sat_horiz ((1:ℝ), 0, 0) ((-7000:ℝ), 0, 0) = 7000 ∧
    sat_vert ((1:ℝ), 0, 0) ((-7000:ℝ), 0, 0) = 0 := by
  have hnb : vector_norm ((-7000:ℝ), 0, 0) = 7000 := by
    show Real.sqrt ((-7000:ℝ)^2 + (0:ℝ)^2 + (0:ℝ)^2) = 7000
    rw [show ((-7000:ℝ)^2 + (0:ℝ)^2 + (0:ℝ)^2) = 7000^2 by norm_num]
    exact Real.sqrt_sq (by norm_num)
  constructor
  · unfold sat_horiz
    rw [angle_between_example, hnb]
    rw [show cos_d 0 = 1 by unfold cos_d radians; norm_num]
    ring
  · unfold sat_vert
    rw [angle_between_example, hnb]
    rw [show sin_d 0 = 0 by unfold sin_d radians; norm_num]
    ring

/-- At the sample point the satellite is classified in UMBRA. -/
lemma shadow_example :
    shadow ((1:ℝ), 0, 0) ((-7000:ℝ), 0, 0) R_E_MEAN_KM = 0 := by
  have hdot : dot_product ((1:ℝ), 0, 0) ((-7000:ℝ), 0, 0) < 0 := by
    unfold dot_product; norm_num
  have hpen : sat_vert ((1:ℝ), 0, 0) ((-7000:ℝ), 0, 0)
      ≤ pen_vert ((1:ℝ), 0, 0) ((-7000:ℝ), 0, 0) R_E_MEAN_KM := by
    rw [sat_verticals_example.2]
    unfold pen_vert
    rw [sat_verticals_example.1]
    have h1 : (0:ℝ) < R_E_MEAN_KM / Real.sin ALPHA_PEN + 7000 := by
      have := sin_alpha_pen_pos
      unfold R_E_MEAN_KM
      positivity
    nlinarith [tan_alpha_pen_pos]
  have humb : sat_vert ((1:ℝ), 0, 0) ((-7000:ℝ), 0, 0)
      ≤ umb_vert ((1:ℝ), 0, 0) ((-7000:ℝ), 0, 0) R_E_MEAN_KM := by
    rw [sat_verticals_example.2]
    unfold umb_vert
    rw [sat_verticals_example.1]
    have h1 : (7000:ℝ) ≤ R_E_MEAN_KM / Real.sin ALPHA_UMB := by
      rw [le_div_iff₀ sin_alpha_umb_pos]
      unfold R_E_MEAN_KM
      nlinarith [sin_alpha_umb_small, sin_alpha_umb_pos]
    nlinarith [tan_alpha_umb_pos]
  unfold shadow
  rw [if_pos hdot, if_pos hpen, if_pos humb]

/-- C4 witness: the classification theorem applied at the umbra sample
point, where the inner branch evaluates to UMBRA (0). -/
theorem shadow_classification_witness :
    dot_product ((1:ℝ), 0, 0) ((-7000:ℝ), 0, 0) < 0 ∧
    sat_vert ((1:ℝ), 0, 0) ((-7000:ℝ), 0, 0)
      ≤ pen_vert ((1:ℝ), 0, 0) ((-7000:ℝ), 0, 0) R_E_MEAN_KM ∧
    shadow ((1:ℝ), 0, 0) ((-7000:ℝ), 0, 0) R_E_MEAN_KM =
      (if sat_vert ((1:ℝ), 0, 0) ((-7000:ℝ), 0, 0)
          ≤ umb_vert ((1:ℝ), 0, 0) ((-7000:ℝ), 0, 0) R_E_MEAN_KM then 0 else 1) := by
  have hdot : dot_product ((1:ℝ), 0, 0) ((-7000:ℝ), 0, 0) < 0 := by
    unfold dot_product; norm_num
  have hpen : sat_vert ((1:ℝ), 0, 0) ((-7000:ℝ), 0, 0)
      ≤ pen_vert ((1:ℝ), 0, 0) ((-7000:ℝ), 0, 0) R_E_MEAN_KM := by
    rw [sat_verticals_example.2]
    unfold pen_vert
    rw [sat_verticals_example.1]
    have h1 : (0:ℝ) < R_E_MEAN_KM / Real.sin ALPHA_PEN + 7000 := by
      have := sin_alpha_pen_pos
      unfold R_E_MEAN_KM
      positivity
    nlinarith [tan_alpha_pen_pos]
  exact ⟨hdot, hpen, (shadow_classification ((1:ℝ), 0, 0) ((-7000:ℝ), 0, 0) R_E_MEAN_KM).2 hdot hpen⟩

/-! ## Time, Sun position and the continuous illumination function
(`utils.py`, `coordinate_systems.py`)

`gstime_from_datetime` delegates to the external `sgp4` package
(`gstime(jday(...))`), which is outside the repository; the functions
below therefore take the GMST function `gst` as a parameter - none of the
claims depend on its values. -/

/-- A UTC timestamp `(year, month, day, hour, minute, second)` as
produced by `timetuple_from_dt`. -/
structure DateTime where
  year : ℤ
  month : ℤ
  day : ℤ
  hour : ℤ
  minute : ℤ
  second : ℝ

/-- `utils.juliandate(utc_tuple)`. -/
def juliandate (t : DateTime) : ℝ :=
  let year : ℤ := if t.month ≤ 2 then t.year - 1 else t.year
  let month : ℤ := if t.month ≤ 2 then t.month + 12 else t.month
  ((Int.floor ((365.25:ℝ) * ((year:ℝ) + 4716.0)) : ℤ) : ℝ)
    + ((Int.floor ((30.6001:ℝ) * ((month:ℝ) + 1.0)) : ℤ) : ℝ) + 2.0
    - ((Int.floor ((year:ℝ) / 100.0) : ℤ) : ℝ)
    + ((Int.floor (((Int.floor ((year:ℝ) / 100.0) : ℤ) : ℝ) / 4.0) : ℤ) : ℝ)
    + (t.day:ℝ) - 1524.5
    + ((t.hour:ℝ) + (t.minute:ℝ) / 60.0 + t.second / 3600.0) / 24.0

/-- Python float `%` with positive modulus: `x - y * floor(x / y)`. -/
def pymod (x y : ℝ) : ℝ := x - y * ((Int.floor (x / y) : ℤ) : ℝ)

/-- `utils.DECEMBER_31TH_1999_MIDNIGHT_JD`. -/
def DECEMBER_31TH_1999_MIDNIGHT_JD : ℝ := 2451543.5

/-- `w`: longitude of perihelion, degrees (`_sun_mean_ecliptic_elements`). -/
def sun_w (d : ℝ) : ℝ := 282.9404 + 4.70935e-5 * d

/-- `eccentricity` of the Sun model (`_sun_mean_ecliptic_elements`). -/
def sun_eccentricity (d : ℝ) : ℝ := 0.016709 - 1.151e-9 * d

/-- `M`: mean anomaly, degrees, reduced `% 360`. -/
def sun_M (d : ℝ) : ℝ := pymod (356.0470 + 0.9856002585 * d) 360

/-- `oblecl`: obliquity of the ecliptic, degrees. -/
def sun_oblecl (d : ℝ) : ℝ := 23.4393 - 3.563e-7 * d

/-- The auxiliary angle of `_sun_eci`, degrees. -/
def sun_auxiliary_angle (d : ℝ) : ℝ :=
  sun_M d + degrees (sun_eccentricity d * sin_d (sun_M d)
    * (1 + sun_eccentricity d * cos_d (sun_M d)))

/-- `x = cos_d(auxiliary_angle) - eccentricity` in `_sun_eci`. -/
def sun_x_plane (d : ℝ) : ℝ := cos_d (sun_auxiliary_angle d) - sun_eccentricity d

/-- `y = sin_d(auxiliary_angle) * sqrt(1 - eccentricity**2)` in `_sun_eci`. -/
def sun_y_plane (d : ℝ) : ℝ :=
  sin_d (sun_auxiliary_angle d) * Real.sqrt (1 - sun_eccentricity d ^ 2)

/-- `r = euclidean_distance(x, y)` in `_sun_eci`. -/
def sun_r (d : ℝ) : ℝ := Real.sqrt (sun_x_plane d ^ 2 + sun_y_plane d ^ 2)

/-- `math.atan2(y, x)` (Python standard library, used by `atan2_d`). -/
def atan2 (y x : ℝ) : ℝ :=
  if 0 < x then Real.arctan (y / x)
  else if x < 0 then
    (if 0 ≤ y then Real.arctan (y / x) + π else Real.arctan (y / x) - π)
  else (if 0 < y then π / 2 else if y < 0 then -(π / 2) else 0)

/-- `v = atan2_d(y, x)`: the true anomaly of the Sun model, degrees. -/
def sun_v (d : ℝ) : ℝ := degrees (atan2 (sun_y_plane d) (sun_x_plane d))

/-- `sun_lon = v + w`: the true longitude of the Sun, degrees. -/
def sun_lon (d : ℝ) : ℝ := sun_v d + sun_w d

/-- `xeclip = r * cos_d(sun_lon)`. -/
def sun_xeclip (d : ℝ) : ℝ := sun_r d * cos_d (sun_lon d)

/-- `yeclip = r * sin_d(sun_lon)`. -/
def sun_yeclip (d : ℝ) : ℝ := sun_r d * sin_d (sun_lon d)

/-- `_sun_eci(w, M, L, eccentricity, oblecl)`: equatorial rectangular
coordinates (note the source rotates `y` by `oblecl` but `z` by the
constant `23.4406`, exactly as written there). -/
def _sun_eci (d : ℝ) : Vec3 :=
  (sun_xeclip d,
   sun_yeclip d * cos_d (sun_oblecl d),
   sun_yeclip d * sin_d 23.4406)

/-- `utils.get_sun(when_utc)`: inertial position of the Sun, in au. -/
def get_sun (t : DateTime) : Vec3 :=
  _sun_eci (juliandate t - DECEMBER_31TH_1999_MIDNIGHT_JD)

/-- `coordinate_systems.ecef_to_eci(v, gmst)`: rotation by GMST about Z. -/
def ecef_to_eci (v : Vec3) (gmst : ℝ) : Vec3 :=
  (v.1 * Real.cos gmst - v.2.1 * Real.sin gmst,
   v.1 * Real.sin gmst + v.2.1 * Real.cos gmst,
   v.2.2)

/-- `utils.get_shadow(r, when_utc)`: converts the ECEF vector `r` to ECI
using GMST and classifies against `get_sun(when_utc) * AU`. -/
def get_shadow (gst : DateTime → ℝ) (r : Vec3) (when_utc : DateTime) : ℕ :=
  shadow (smul3 AU (get_sun when_utc)) (ecef_to_eci r (gst when_utc)) R_E_MEAN_KM

/-- The body of `get_satellite_minus_penumbra_verticals` after the ECI
conversion: `vector_norm(r) - r_p / cos(ALPHA_PEN)` when
`dot_product(r_sun, r) >= 0`, otherwise `sat_vert - pen_vert` (the same
internals as `shadow`). -/
def satellite_minus_penumbra (r_sun r : Vec3) (r_p : ℝ) : ℝ :=
  if 0 ≤ dot_product r_sun r then vector_norm r - r_p / Real.cos ALPHA_PEN
  else sat_vert r_sun r - pen_vert r_sun r r_p

/-- `utils.get_satellite_minus_penumbra_verticals(r, when_utc)` with the
default planet radius. -/
def get_satellite_minus_penumbra_verticals (gst : DateTime → ℝ) (r : Vec3)
    (when_utc : DateTime) : ℝ :=
  satellite_minus_penumbra (smul3 AU (get_sun when_utc))
    (ecef_to_eci r (gst when_utc)) R_E_MEAN_KM

/-- The norm of a scaled vector. -/
lemma vector_norm_smul (c : ℝ) (a : Vec3) :
    vector_norm (smul3 c a) = |c| * vector_norm a := by
  unfold vector_norm smul3
  rw [show (c * a.1)^2 + (c * a.2.1)^2 + (c * a.2.2)^2
        = c^2 * (a.1^2 + a.2.1^2 + a.2.2^2) by ring]
  rw [Real.sqrt_mul (sq_nonneg c), Real.sqrt_sq_eq_abs]

/-- Dot product of a vector with a scaled copy of itself. -/
lemma dot_product_smul_self (c : ℝ) (a : Vec3) :
    dot_product a (smul3 c a) = c * (a.1^2 + a.2.1^2 + a.2.2^2) := by
  unfold dot_product smul3
  ring

/-- The squared norm is the sum of the squared components. -/
lemma vector_norm_sq (a : Vec3) :
    vector_norm a ^ 2 = a.1^2 + a.2.1^2 + a.2.2^2 := by
  unfold vector_norm
  exact Real.sq_sqrt (by positivity)

/-- Rotating by GMST 0 is the identity. -/
lemma ecef_to_eci_zero (v : Vec3) : ecef_to_eci v 0 = v := by
  unfold ecef_to_eci
  simp

/-- In-plane radius identity: `x² + y² = (1 - e·cos(aux))²`. -/
lemma sun_r_sq (d : ℝ) (he : sun_eccentricity d ^ 2 ≤ 1) :
    sun_x_plane d ^ 2 + sun_y_plane d ^ 2
      = (1 - sun_eccentricity d * cos_d (sun_auxiliary_angle d)) ^ 2 := by
  unfold sun_x_plane sun_y_plane
  rw [mul_pow, Real.sq_sqrt (by linarith)]
  have hsc := Real.sin_sq_add_cos_sq (radians (sun_auxiliary_angle d))
  unfold sin_d cos_d
  linear_combination (1 - sun_eccentricity d ^ 2) * hsc

/-- Ecliptic components identity: `xeclip² + yeclip² = r²`. -/
lemma sun_eclip_sq (d : ℝ) :
    sun_xeclip d ^ 2 + sun_yeclip d ^ 2 = sun_r d ^ 2 := by
  unfold sun_xeclip sun_yeclip
  have hsc := Real.sin_sq_add_cos_sq (radians (sun_lon d))
  unfold sin_d cos_d
  linear_combination (sun_r d ^ 2) * hsc

/-- For sub-unit model eccentricity the in-plane radius is positive. -/
lemma sun_r_pos (d : ℝ) (he0 : 0 ≤ sun_eccentricity d)
    (he1 : sun_eccentricity d < 1) : 0 < sun_r d := by
  unfold sun_r
  apply Real.sqrt_pos.mpr
  rw [sun_r_sq d (by nlinarith)]
  have hc1 : cos_d (sun_auxiliary_angle d) ≤ 1 := Real.cos_le_one _
  have hc2 : -1 ≤ cos_d (sun_auxiliary_angle d) := Real.neg_one_le_cos _
  have hec : sun_eccentricity d * cos_d (sun_auxiliary_angle d) ≤ sun_eccentricity d :=
    mul_le_of_le_one_right he0 hc1
  have hpos : 0 < 1 - sun_eccentricity d * cos_d (sun_auxiliary_angle d) := by linarith
  positivity

/-- For sub-unit model eccentricity the Sun vector is nonzero. -/
lemma sun_vec_norm_pos (d : ℝ) (he0 : 0 ≤ sun_eccentricity d)
    (he1 : sun_eccentricity d < 1) : 0 < vector_norm (_sun_eci d) := by
  have hr : 0 < sun_r d := sun_r_pos d he0 he1
  unfold vector_norm _sun_eci
  apply Real.sqrt_pos.mpr
  rcases eq_or_ne (sun_yeclip d) 0 with hy | hy
  · have hx : sun_xeclip d ^ 2 = sun_r d ^ 2 := by
      have h := sun_eclip_sq d
      rw [hy] at h
      simpa using h
    simp only [hy, zero_mul, ne_eq]
    nlinarith [hr, hx]
  · have hsin : 0 < sin_d 23.4406 := by
      unfold sin_d
      apply Real.sin_pos_of_pos_of_lt_pi
      · unfold radians
        positivity
      · unfold radians
        nlinarith [Real.pi_pos]
    have h2 : 0 < (sun_yeclip d * sin_d 23.4406) ^ 2 :=
      pow_two_pos_of_ne_zero (mul_ne_zero hy hsin.ne')
    nlinarith [sq_nonneg (sun_xeclip d),
      sq_nonneg (sun_yeclip d * cos_d (sun_oblecl d)), h2]

/-- C5 (amended).  Sign relation between the discrete classifier and the
continuous illumination function on identical inputs: in umbra or
penumbra the illumination is `≤ 0` (zero exactly on the penumbra
boundary, so not strictly negative); when the classifier returns LIT
because `r_sun·r < 0` and `sat_vert > pen_vert` the illumination is
strictly positive; when `r_sun·r ≥ 0` (always LIT) the illumination is
positive if and only if `‖r‖ > R_E/cos(ALPHA_PEN)`, a bound slightly
above the Earth mean radius.  The wrappers `get_shadow` and
`get_satellite_minus_penumbra_verticals` feed identical preprocessed
inputs to both functions. -/
theorem illumination_sign_amended (r_sun r : Vec3) (r_p : ℝ)
    (gst : DateTime → ℝ) (when_utc : DateTime) (recef : Vec3) :
    ((shadow r_sun r r_p = 0 ∨ shadow r_sun r r_p = 1) →
        satellite_minus_penumbra r_sun r r_p ≤ 0) ∧
    (shadow r_sun r r_p = 2 → dot_product r_sun r < 0 →
        0 < satellite_minus_penumbra r_sun r r_p) ∧
    (0 ≤ dot_product r_sun r →
        (0 < satellite_minus_penumbra r_sun r r_p ↔
          r_p / Real.cos ALPHA_PEN < vector_norm r)) ∧
    get_shadow gst recef when_utc
      = shadow (smul3 AU (get_sun when_utc))
          (ecef_to_eci recef (gst when_utc)) R_E_MEAN_KM ∧
    get_satellite_minus_penumbra_verticals gst recef when_utc
      = satellite_minus_penumbra (smul3 AU (get_sun when_utc))
          (ecef_to_eci recef (gst when_utc)) R_E_MEAN_KM := by
  refine ⟨?_, ?_, ?_, rfl, rfl⟩
  · intro h
    have hd : dot_product r_sun r < 0 ∧ sat_vert r_sun r ≤ pen_vert r_sun r r_p := by
      by_contra hcon
      unfold shadow at h
      rcases not_and_or.mp hcon with hc | hc
      · rw [if_neg hc] at h
        rcases h with h | h
        · exact absurd h (by norm_num)
        · exact absurd h (by norm_num)
      · by_cases hd0 : dot_product r_sun r < 0
        · rw [if_pos hd0, if_neg hc] at h
          rcases h with h | h
          · exact absurd h (by norm_num)
          · exact absurd h (by norm_num)
        · rw [if_neg hd0] at h
          rcases h with h | h
          · exact absurd h (by norm_num)
          · exact absurd h (by norm_num)
    unfold satellite_minus_penumbra
    rw [if_neg (not_le.mpr hd.1)]
    linarith [hd.2]
  · intro h2 hdneg
    have hsv : pen_vert r_sun r r_p < sat_vert r_sun r := by
      by_contra hc
      push_neg at hc
      unfold shadow at h2
      rw [if_pos hdneg, if_pos hc] at h2
      by_cases h3 : sat_vert r_sun r ≤ umb_vert r_sun r r_p
      · rw [if_pos h3] at h2
        exact absurd h2 (by norm_num)
      · rw [if_neg h3] at h2
        exact absurd h2 (by norm_num)
    unfold satellite_minus_penumbra
    rw [if_neg (not_le.mpr hdneg)]
    linarith
  · intro hd
    unfold satellite_minus_penumbra
    rw [if_pos hd]
    constructor
    · intro h
      linarith
    · intro h
      linarith

/-- C5 witness: the sign theorem applied at the umbra sample point. -/
theorem illumination_sign_witness :
    (shadow ((1:ℝ), 0, 0) ((-7000:ℝ), 0, 0) R_E_MEAN_KM = 0 ∨
     shadow ((1:ℝ), 0, 0) ((-7000:ℝ), 0, 0) R_E_MEAN_KM = 1) ∧
    satellite_minus_penumbra ((1:ℝ), 0, 0) ((-7000:ℝ), 0, 0) R_E_MEAN_KM ≤ 0 :=
  ⟨Or.inl shadow_example,
    (illumination_sign_amended ((1:ℝ), 0, 0) ((-7000:ℝ), 0, 0) R_E_MEAN_KM
      (fun _ => 0) ⟨2000, 1, 1, 0, 0, 0⟩ ((0:ℝ), 0, 0)).1 (Or.inl shadow_example)⟩

/-- The date 2020-01-01T00:00:00 UTC. -/
def jan2020 : DateTime := ⟨2020, 1, 1, 0, 0, 0⟩

/-- Julian date of 2020-01-01T00:00:00 UTC. -/
lemma juliandate_jan2020 : juliandate jan2020 = 2458849.5 := by
  unfold juliandate jan2020
  norm_num

/-- The Sun vector of the illumination counterexample, in km. -/
def sun_jan2020 : Vec3 := smul3 AU (get_sun jan2020)

/-- The Sun-model eccentricity on 2020-01-01 lies in `[0, 1)`. -/
lemma sun_ecc_jan2020 :
    0 ≤ sun_eccentricity (juliandate jan2020 - DECEMBER_31TH_1999_MIDNIGHT_JD) ∧
    sun_eccentricity (juliandate jan2020 - DECEMBER_31TH_1999_MIDNIGHT_JD) < 1 := by
  rw [juliandate_jan2020]
  unfold DECEMBER_31TH_1999_MIDNIGHT_JD sun_eccentricity
  norm_num

/-- The Sun vector of the counterexample is nonzero. -/
lemma sun_jan2020_norm_pos : 0 < vector_norm sun_jan2020 := by
  unfold sun_jan2020
  rw [vector_norm_smul]
  have hAU : (0:ℝ) < AU := by unfold AU; norm_num
  rw [abs_of_pos hAU]
  have hsun : 0 < vector_norm (get_sun jan2020) := by
    unfold get_sun
    exact sun_vec_norm_pos _ (sun_ecc_jan2020).1 (sun_ecc_jan2020).2
  positivity

/-- The ECEF satellite vector of the counterexample: along the Sun
direction, with norm 6371.04 km (just above the Earth mean radius but
below `R_E_MEAN_KM / cos ALPHA_PEN`). -/
def rvec_c5 : Vec3 := smul3 (6371.04 / vector_norm sun_jan2020) sun_jan2020

/-- The counterexample vector has norm 6371.04 km. -/
lemma rvec_c5_norm : vector_norm rvec_c5 = 6371.04 := by
  unfold rvec_c5
  rw [vector_norm_smul]
  rw [abs_of_pos (div_pos (by norm_num) sun_jan2020_norm_pos)]
  rw [div_mul_cancel₀ _ sun_jan2020_norm_pos.ne']

/-- The counterexample vector points towards the Sun. -/
lemma rvec_c5_dot : 0 ≤ dot_product sun_jan2020 rvec_c5 := by
  unfold rvec_c5
  rw [dot_product_smul_self]
  have h1 : 0 ≤ 6371.04 / vector_norm sun_jan2020 :=
    div_nonneg (by norm_num) sun_jan2020_norm_pos.le
  have h2 : (0:ℝ) ≤ sun_jan2020.1^2 + sun_jan2020.2.1^2 + sun_jan2020.2.2^2 := by
    positivity
  exact mul_nonneg h1 h2

/-- Numeric bound: `6371.04 * cos ALPHA_PEN < R_E_MEAN_KM`, i.e. the norm
of the counterexample vector is below the penumbra-corrected radius. -/
lemma cos_alpha_pen_bound : 6371.04 * Real.cos ALPHA_PEN < R_E_MEAN_KM := by
  have hl : (0.004695:ℝ) < ALPHA_PEN := by
    unfold ALPHA_PEN radians
    nlinarith [Real.pi_gt_d6]
  have hu : ALPHA_PEN < 0.0046952 := by
    unfold ALPHA_PEN radians
    nlinarith [Real.pi_lt_d6]
  have habs : |ALPHA_PEN| ≤ 1 := by
    rw [abs_of_pos (by linarith)]
    linarith
  have hb := Real.cos_bound habs
  have hcos : Real.cos ALPHA_PEN ≤ 1 - ALPHA_PEN^2/2 + ALPHA_PEN^4 * (5/96) := by
    have h2 := (abs_le.mp hb).2
    rw [abs_of_pos (by linarith : (0:ℝ) < ALPHA_PEN)] at h2
    linarith
  have h2l : (0.000022:ℝ) < ALPHA_PEN^2 := by nlinarith [hl]
  have h2u : ALPHA_PEN^2 < (0.0046952:ℝ)^2 := by nlinarith [hu, hl]
  have h4u : ALPHA_PEN^4 < (0.000000001:ℝ) := by nlinarith [h2u, sq_nonneg ALPHA_PEN]
  unfold R_E_MEAN_KM
  nlinarith [hcos, h2l, h4u]

/-- C5 counterexample.  The claim (illumination strictly positive
whenever the classifier returns 2, strictly negative whenever it returns
0 or 1, for every time and every ECEF position with norm above the Earth
mean radius) is false: on 2020-01-01, a satellite placed towards the Sun
at 6371.04 km (above `R_E_MEAN_KM = 6371.0087714`) is classified LIT
(`r_sun·r ≥ 0`), yet the continuous function
`‖r‖ - R_E_MEAN_KM / cos ALPHA_PEN` is negative.  The statement is
refuted for every GMST backend `gst`. -/
theorem illumination_sign_counterexample :
    ¬ (∀ (gst : DateTime → ℝ) (when_utc : DateTime) (r : Vec3),
        R_E_MEAN_KM < vector_norm r →
        (get_shadow gst r when_utc = 2 →
          0 < get_satellite_minus_penumbra_verticals gst r when_utc) ∧
        ((get_shadow gst r when_utc = 0 ∨ get_shadow gst r when_utc = 1) →
          get_satellite_minus_penumbra_verticals gst r when_utc < 0)) := by
  intro hclaim
  have hnormgt : R_E_MEAN_KM < vector_norm rvec_c5 := by
    rw [rvec_c5_norm]
    unfold R_E_MEAN_KM
    norm_num
  have hmain := hclaim (fun _ => 0) jan2020 rvec_c5 hnormgt
  have hshadow : get_shadow (fun _ => 0) rvec_c5 jan2020 = 2 := by
    show shadow (smul3 AU (get_sun jan2020)) (ecef_to_eci rvec_c5 0) R_E_MEAN_KM = 2
    rw [ecef_to_eci_zero]
    show shadow sun_jan2020 rvec_c5 R_E_MEAN_KM = 2
    unfold shadow
    rw [if_neg (not_lt.mpr rvec_c5_dot)]
  have hval : get_satellite_minus_penumbra_verticals (fun _ => 0) rvec_c5 jan2020
      = 6371.04 - R_E_MEAN_KM / Real.cos ALPHA_PEN := by
    show satellite_minus_penumbra (smul3 AU (get_sun jan2020))
        (ecef_to_eci rvec_c5 0) R_E_MEAN_KM = 6371.04 - R_E_MEAN_KM / Real.cos ALPHA_PEN
    rw [ecef_to_eci_zero]
    show satellite_minus_penumbra sun_jan2020 rvec_c5 R_E_MEAN_KM
        = 6371.04 - R_E_MEAN_KM / Real.cos ALPHA_PEN
    unfold satellite_minus_penumbra
    rw [if_pos rvec_c5_dot, rvec_c5_norm]
  have hpos := hmain.1 hshadow
  rw [hval] at hpos
  have hcospos : 0 < Real.cos ALPHA_PEN :=
    Real.cos_pos_of_mem_Ioo ⟨by linarith [alpha_pen_mem.1, Real.pi_pos], alpha_pen_mem.2⟩
  have hlt : R_E_MEAN_KM / Real.cos ALPHA_PEN < 6371.04 := by linarith
  rw [div_lt_iff₀ hcospos] at hlt
  linarith [cos_alpha_pen_bound]

/-! ## Sun-synchronous constructor (`predictors/numerical.py`) -/

/-- Failure modes of `J2Predictor.sun_synchronous` in the
altitude+eccentricity branch: `InvalidOrbitError` (converted from the
numpy `FloatingPointError` that `np.arccos` raises under
`errstate(invalid="raise")` for an argument outside `[-1, 1]`), or the
`NotImplementedError` that `KeplerianPredictor.__init__` raises for
`ecc >= 1.0`. -/
inductive SunSyncError
  | invalidOrbit
  | notImplemented
  deriving DecidableEq

/-- The argument of the inverse cosine solved for the inclination:
`(-2 sma^(7/2) OMEGA (1-ecc²)²) / (3 R_E² J2 sqrt(MU_E))` with
`sma = R_E_KM + alt_km`. -/
def sun_sync_arg (alt_km ecc : ℝ) : ℝ :=
  (-2 * (R_E_KM + alt_km) ^ ((7:ℝ)/2) * OMEGA * (1 - ecc^2)^2)
    / (3 * R_E_KM^2 * J2 * Real.sqrt MU_E)

/-- `J2Predictor.sun_synchronous(alt_km=…, ecc=…)` (the inclination
branch).  Out-of-range arccosine raises `InvalidOrbitError`; otherwise
`inc_deg = degrees(arccos(arg))` and the elements go to the
`KeplerianPredictor` constructor, which rejects `ecc >= 1.0` with
`NotImplementedError`.  The epoch (from `ltan_h` and today's date) and
the RAAN derived via `raan_from_ltan` do not affect the claim and are
omitted; the result is the `(sma, ecc, inc_deg)` triple. -/
def sun_synchronous (alt_km ecc : ℝ) : Except SunSyncError (ℝ × ℝ × ℝ) :=
  if sun_sync_arg alt_km ecc < -1 ∨ 1 < sun_sync_arg alt_km ecc then
    .error .invalidOrbit
  else if 1 ≤ ecc then .error .notImplemented
  else .ok (R_E_KM + alt_km, ecc, degrees (Real.arccos (sun_sync_arg alt_km ecc)))

/-- C8 (amended).  The constructor fails with `InvalidOrbitError` exactly
when the arccosine argument is outside `[-1, 1]`; when the argument is in
range and `ecc < 1` it returns the predictor whose inclination is the
arccosine of that argument in degrees (for `ecc ≥ 1` with an in-range
argument the `KeplerianPredictor` constructor raises
`NotImplementedError` instead of returning a predictor). -/
theorem sun_synchronous_amended (alt_km ecc : ℝ) :
    (sun_synchronous alt_km ecc = .error .invalidOrbit ↔
      (sun_sync_arg alt_km ecc < -1 ∨ 1 < sun_sync_arg alt_km ecc)) ∧
    (-1 ≤ sun_sync_arg alt_km ecc → sun_sync_arg alt_km ecc ≤ 1 → ecc < 1 →
      sun_synchronous alt_km ecc
        = .ok (R_E_KM + alt_km, ecc, degrees (Real.arccos (sun_sync_arg alt_km ecc)))) := by
  constructor
  · constructor
    · intro h
      by_contra hcon
      unfold sun_synchronous at h
      rw [if_neg hcon] at h
      by_cases he : 1 ≤ ecc
      · rw [if_pos he] at h
        injection h with h1
        exact SunSyncError.noConfusion h1
      · rw [if_neg he] at h
        cases h
    · intro h
      unfold sun_synchronous
      rw [if_pos h]
  · intro h1 h2 he
    unfold sun_synchronous
    rw [if_neg (by push_neg; exact ⟨h1, h2⟩), if_neg (not_le.mpr he)]

/-- Numeric bounds on `sun_sync_arg 800 0`: it lies inside `[-1, 1]`
(the classic 800 km Sun-synchronous orbit, inclination about 98.6°). -/
lemma sun_sync_arg_800_bounds : -1 ≤ sun_sync_arg 800 0 ∧ sun_sync_arg 800 0 ≤ 1 := by
  have hsma : R_E_KM + (800:ℝ) = 7178.137 := by unfold R_E_KM; norm_num
  have hXpos : (0:ℝ) < (7178.137:ℝ) ^ ((7:ℝ)/2) :=
    Real.rpow_pos_of_pos (by norm_num) _
  have hsq85 : Real.sqrt 7178.137 < 85 := by
    have h := Real.sqrt_lt_sqrt (by norm_num : (0:ℝ) ≤ 7178.137)
      (by norm_num : (7178.137:ℝ) < 7225)
    rw [show (7225:ℝ) = 85^2 by norm_num,
      Real.sqrt_sq (by norm_num : (0:ℝ) ≤ 85)] at h
    exact h
  have hX : (7178.137:ℝ) ^ ((7:ℝ)/2) = 7178.137^(3:ℕ) * Real.sqrt 7178.137 := by
    rw [show ((7:ℝ)/2) = ((3:ℕ):ℝ) + (1/2 : ℝ) by norm_num]
    rw [Real.rpow_add (by norm_num), Real.rpow_natCast, ← Real.sqrt_eq_rpow]
  have hXub : (7178.137:ℝ) ^ ((7:ℝ)/2) < 31500000000000 := by
    rw [hX]
    nlinarith [Real.sqrt_nonneg (7178.137:ℝ), hsq85]
  have hΩpos : 0 < OMEGA := by
    unfold OMEGA
    positivity
  have hΩub : OMEGA < 0.0000002 := by
    unfold OMEGA
    rw [div_lt_iff₀ (by norm_num)]
    nlinarith [Real.pi_lt_d6]
  have hsqmu : (631:ℝ) < Real.sqrt MU_E := by
    unfold MU_E
    have h := Real.sqrt_lt_sqrt (by norm_num : (0:ℝ) ≤ 398161)
      (by norm_num : (398161:ℝ) < 398600.5)
    rw [show (398161:ℝ) = 631^2 by norm_num,
      Real.sqrt_sq (by norm_num : (0:ℝ) ≤ 631)] at h
    exact h
  have hsqmupos : (0:ℝ) < Real.sqrt MU_E := by linarith
  have hXΩ : (7178.137:ℝ) ^ ((7:ℝ)/2) * OMEGA < 31500000000000 * 0.0000002 :=
    mul_lt_mul'' hXub hΩub hXpos.le hΩpos.le
  constructor
  · unfold sun_sync_arg
    rw [hsma]
    unfold R_E_KM J2
    rw [le_div_iff₀ (by positivity)]
    nlinarith [hXΩ, hsqmu, hXpos, hΩpos, hsqmupos]
  · unfold sun_sync_arg
    have hnum : -2 * (R_E_KM + (800:ℝ)) ^ ((7:ℝ)/2) * OMEGA * (1 - (0:ℝ)^2)^2 ≤ 0 := by
      rw [hsma]
      nlinarith [hXpos, hΩpos]
    have hden : (0:ℝ) ≤ 3 * R_E_KM^2 * J2 * Real.sqrt MU_E := by
      unfold R_E_KM J2
      positivity
    have := div_nonpos_of_nonpos_of_nonneg hnum hden
    linarith

/-- C8 witness: the amended theorem applied at `alt_km = 800`, `ecc = 0`
(the concrete scenario of the spec, inclination ≈ 98.6°). -/
theorem sun_synchronous_witness :
    -1 ≤ sun_sync_arg 800 0 ∧ sun_sync_arg 800 0 ≤ 1 ∧ (0:ℝ) < 1 ∧
    sun_synchronous 800 0
      = .ok (R_E_KM + 800, 0, degrees (Real.arccos (sun_sync_arg 800 0))) :=
  ⟨sun_sync_arg_800_bounds.1, sun_sync_arg_800_bounds.2, by norm_num,
    (sun_synchronous_amended 800 0).2 sun_sync_arg_800_bounds.1
      sun_sync_arg_800_bounds.2 (by norm_num)⟩

/-- C8 counterexample.  With `alt_km = 800`, `ecc = 1` the arccosine
argument is 0 - inside `[-1, 1]` - yet no predictor is returned: the call
fails with the `NotImplementedError` of `KeplerianPredictor.__init__`
(`ecc >= 1.0`), so "fails with InvalidOrbitError exactly when the
argument lies outside [-1, 1]; otherwise returns a predictor" is false. -/
theorem sun_synchronous_counterexample :
    sun_sync_arg 800 1 = 0 ∧
    sun_synchronous 800 1 = .error .notImplemented := by
  have harg : sun_sync_arg 800 1 = 0 := by
    unfold sun_sync_arg
    norm_num
  refine ⟨harg, ?_⟩
  unfold sun_synchronous
  rw [harg]
  rw [if_neg (by norm_num), if_pos (by norm_num)]

/-! ## Eclipse duration (`utils.eclipse_duration`) -/

/-- `np.clip(x, a, b)`. -/
def np_clip (x a b : ℝ) : ℝ := min (max x a) b

/-- `utils.eclipse_duration(beta, period, r_p)`: eclipse duration in
minutes for a circular orbit (Vallado 4th ed., p. 305).  `r` is the
circular orbital radius corresponding to the period; its `np.cbrt`
argument is nonnegative, so the real cube root is `rpow (1/3)`. -/
def eclipse_duration (beta period r_p : ℝ) : ℝ :=
  let r := (MU_E / (4 * π^2) * (period * 60)^2) ^ ((1:ℝ)/3)
  Real.arccos (np_clip (Real.sqrt (1 - (r_p / r)^2) / Real.cos (radians beta)) (-1) 1)
    * period / π

/-- Modelled from the spec: `get_eclipse_duration` is not among the
sources of this tree (only the helper `utils.eclipse_duration` is).  Per
the spec it "fails with `NotImplementedError` for `ecc > 0.1`" and
otherwise evaluates the closed form with `beta = get_beta(when_utc)` and
the predictor's period; the eccentricity, the beta angle and the period
of the predictor are abstracted as real parameters. -/
def get_eclipse_duration (ecc beta period : ℝ) : Except Unit ℝ :=
  if 0.1 < ecc then .error ()
  else .ok (eclipse_duration beta period R_E_MEAN_KM)

/-- C9.  `get_eclipse_duration` fails with `NotImplementedError` exactly
when the eccentricity exceeds 0.1, and for `ecc ≤ 0.1` returns
`(period/π) · acos(clip(sqrt(1 - (R_E/r)²)/cos(beta), -1, 1))`, where `r`
is the circular orbital radius corresponding to the period. -/
theorem eclipse_duration_circular (ecc beta period : ℝ) :
    (get_eclipse_duration ecc beta period = .error () ↔ 0.1 < ecc) ∧
    (ecc ≤ 0.1 → get_eclipse_duration ecc beta period
      = .ok (period / π * Real.arccos (np_clip
          (Real.sqrt (1 - (R_E_MEAN_KM
            / ((MU_E / (4 * π^2) * (period * 60)^2) ^ ((1:ℝ)/3)))^2)
            / Real.cos (radians beta)) (-1) 1))) := by
  constructor
  · constructor
    · intro h
      by_contra hc
      unfold get_eclipse_duration at h
      rw [if_neg hc] at h
      cases h
    · intro h
      unfold get_eclipse_duration
      rw [if_pos h]
  · intro h
    unfold get_eclipse_duration
    rw [if_neg (not_lt.mpr h)]
    simp only [eclipse_duration]
    exact congrArg Except.ok (by ring)

/-- C9 witness: the theorem applied at `ecc = 0`, `beta = 0`,
`period = 100` minutes. -/
theorem eclipse_duration_circular_witness :
    (0:ℝ) ≤ 0.1 ∧
    get_eclipse_duration 0 0 100
      = .ok ((100:ℝ) / π * Real.arccos (np_clip
          (Real.sqrt (1 - (R_E_MEAN_KM
            / ((MU_E / (4 * π^2) * ((100:ℝ) * 60)^2) ^ ((1:ℝ)/3)))^2)
            / Real.cos (radians 0)) (-1) 1)) :=
  ⟨by norm_num, (eclipse_duration_circular 0 0 100).2 (by norm_num)⟩

/-! ## Bracketed pass search (`predictors/base.py`)

Time is modelled as real seconds; the elevation function `elev` stands
for the composite `location.elevation_for(predictor.get_only_position(t))`
(one propagator call per evaluation).  `ONE_SECOND`, the fixed tolerance
of `base.py`, is the literal `1` below.  Failures are `PropagationError`
(no ascending / descending phase among the four probes) and the
`assert elevation < 0` of `_find_aos`. -/

/-- The state of a `LocationPredictor`: the composite elevation function,
the predictor's `mean_motion` (rad/min), the thresholds in radians
(`__init__` stores `max_elevation_gt = radians(max(max_elevation_gt,
aos_at_dg))` and `aos_at = radians(aos_at_dg)`), and the optional limit
date. -/
structure LocationPredictor where
  elev : ℝ → ℝ
  mean_motion : ℝ
  max_elevation_gt : ℝ
  aos_at : ℝ
  limit_date : Option ℝ

/-- `LocationPredictor.__init__`: thresholds arrive in degrees. -/
def LocationPredictor.make (elev : ℝ → ℝ) (mean_motion : ℝ)
    (max_elevation_gt aos_at_dg : ℝ) (limit_date : Option ℝ) : LocationPredictor :=
  ⟨elev, mean_motion, radians (max max_elevation_gt aos_at_dg),
    radians aos_at_dg, limit_date⟩

/-- `is_ascending(t)`: `elevation_at(t) <= elevation_at(t + ONE_SECOND)`. -/
def is_ascending (c : LocationPredictor) (t : ℝ) : Prop :=
  c.elev t ≤ c.elev (t + 1)

/-- `_orbit_step(size)`: `(size * 2π / mean_motion) * 60` seconds. -/
def _orbit_step (c : LocationPredictor) (size : ℝ) : ℝ :=
  size * 2 * π / c.mean_motion * 60

/-- `midpoint(start, end) = start + (end - start)/2`. -/
def midpoint (s e : ℝ) : ℝ := s + (e - s) / 2

/-- `_precision_reached(start, end)`: `end - start <= ONE_SECOND`. -/
def _precision_reached (s e : ℝ) : Prop := e - s ≤ 1

/-- Halving a length that is above the tolerance decreases its ceiling:
the termination measure of the bisection loops. -/
lemma ceil_half_lt {x : ℝ} (hx : 1 < x) : Nat.ceil (x / 2) < Nat.ceil x := by
  have hn : 1 < Nat.ceil x := by
    rw [Nat.lt_ceil]
    exact_mod_cast hx
  have hle : x ≤ (Nat.ceil x : ℝ) := Nat.le_ceil x
  have hstep : Nat.ceil (x / 2) ≤ Nat.ceil x - 1 := by
    rw [Nat.ceil_le]
    have hcast : ((Nat.ceil x - 1 : ℕ) : ℝ) = (Nat.ceil x : ℝ) - 1 := by
      rw [Nat.cast_sub (by omega)]
      norm_num
    rw [hcast]
    have h2 : (2:ℝ) ≤ (Nat.ceil x : ℝ) := by exact_mod_cast hn
    linarith
  omega

/-- The shared shape of the three bisection loops of `base.py`
(`_find_tca`, `_find_aos`, `_find_los`): loop while not
`_precision_reached`, moving the LEFT endpoint to the midpoint when `P`
holds there and the RIGHT endpoint otherwise; the result is the final
`(start, end)` bracket.  `_find_tca` uses `P = is_ascending`; `_find_aos`
uses `P m = (elevation(m) < aos_at)`; `_find_los` uses
`P m = ¬(elevation(m) < aos_at)`. -/
def bisect_loop (P : ℝ → Prop) (s e : ℝ) : ℝ × ℝ :=
  if _h : _precision_reached s e then (s, e)
  else if P (midpoint s e) then bisect_loop P (midpoint s e) e
  else bisect_loop P s (midpoint s e)
termination_by Nat.ceil (e - s)
decreasing_by
  · rw [show e - midpoint s e = (e - s) / 2 by unfold midpoint; ring]
    apply ceil_half_lt
    unfold _precision_reached at _h
    linarith [not_le.mp _h]
  · rw [show midpoint s e - s = (e - s) / 2 by unfold midpoint; ring]
    apply ceil_half_lt
    unfold _precision_reached at _h
    linarith [not_le.mp _h]

/-- `_find_tca(ascending_date, descending_date)`: bisect on
`is_ascending` and return the final `ascending_date` (left endpoint). -/
def _find_tca (c : LocationPredictor) (ascending_date descending_date : ℝ) : ℝ :=
  (bisect_loop (is_ascending c) ascending_date descending_date).1

/-- Failures of the pass search: `PropagationError`, or the
`AssertionError` from `assert elevation < 0` in `_find_aos`. -/
inductive PassError
  | propagationError
  | assertionError
  deriving DecidableEq

/-- `_find_aos(tca)`: `start = tca - orbit_step(0.34)`, assert
`elevation(start) < 0`, bisect `(start, tca)` moving `start` up while the
midpoint elevation is below `aos_at`; return the final `end`. -/
def _find_aos (c : LocationPredictor) (tca : ℝ) : Except PassError ℝ :=
  let start := tca - _orbit_step c 0.34
  if c.elev start < 0 then
    .ok (bisect_loop (fun m => c.elev m < c.aos_at) start tca).2
  else .error .assertionError

/-- `_find_los(tca)`: bisect `(tca, tca + orbit_step(0.34))` moving `end`
down while the midpoint elevation is below `aos_at` (so the left endpoint
moves exactly when the midpoint is NOT below the threshold); return the
final `start`. -/
def _find_los (c : LocationPredictor) (tca : ℝ) : ℝ :=
  (bisect_loop (fun m => ¬ (c.elev m < c.aos_at)) tca (tca + _orbit_step c 0.34)).1

/-- `_sample_points(date)`: the four probe candidates over
`(date, date + orbit_step(0.99))`, in the source's order
`[end, mid, mid_right, mid_left]`. -/
def _sample_points (c : LocationPredictor) (date : ℝ) : List ℝ :=
  let start := date
  let e := date + _orbit_step c 0.99
  let mid := midpoint start e
  let mid_right := midpoint mid e
  let mid_left := midpoint start mid
  [e, mid, mid_right, mid_left]

/-- The order the SPEC states for the four probe candidates:
`{end, mid, (start+mid)/2, (mid+end)/2}` - mid-left before mid-right.
Written from the spec's words for comparison with `_sample_points`. -/
def _sample_points_spec_order (c : LocationPredictor) (date : ℝ) : List ℝ :=
  let start := date
  let e := date + _orbit_step c 0.99
  let mid := midpoint start e
  let mid_right := midpoint mid e
  let mid_left := midpoint start mid
  [e, mid, mid_left, mid_right]

/-- The `for candidate in self._sample_points(date)` loop with its early
`return` and the `PropagationError` of the `for/else` fall-through. -/
def find_first (P : ℝ → Prop) : List ℝ → Except PassError ℝ
  | [] => .error .propagationError
  | x :: xs => if P x then .ok x else find_first P xs

/-- `_find_nearest_descending(ascending_date)`. -/
def _find_nearest_descending (c : LocationPredictor) (t : ℝ) : Except PassError ℝ :=
  find_first (fun x => ¬ is_ascending c x) (_sample_points c t)

/-- `_find_nearest_ascending(descending_date)`. -/
def _find_nearest_ascending (c : LocationPredictor) (t : ℝ) : Except PassError ℝ :=
  find_first (is_ascending c) (_sample_points c t)

/-- `AccuratePredictedPass(aos, tca, los, max_elevation)`; `aos` and
`los` are `None` when the pass does not clear `max_elevation_gt`. -/
structure AccuratePredictedPass where
  aos : Option ℝ
  tca : ℝ
  los : Option ℝ
  max_elevation : ℝ

/-- `valid`: `max_elevation > 0 and aos is not None and los is not None`. -/
def AccuratePredictedPass.valid (p : AccuratePredictedPass) : Prop :=
  0 < p.max_elevation ∧ p.aos ≠ none ∧ p.los ≠ none

/-- `max_elevation_deg = degrees(max_elevation)`. -/
def AccuratePredictedPass.max_elevation_deg (p : AccuratePredictedPass) : ℝ :=
  degrees p.max_elevation

/-- `duration = los - aos` (`0` stands in for the `None` fields, which a
valid pass never has). -/
def AccuratePredictedPass.duration (p : AccuratePredictedPass) : ℝ :=
  p.los.getD 0 - p.aos.getD 0

/-- `_refine_pass(ascending_date, descending_date)`. -/
def _refine_pass (c : LocationPredictor) (ascending_date descending_date : ℝ) :
    Except PassError AccuratePredictedPass :=
  let tca := _find_tca c ascending_date descending_date
  let elevation := c.elev tca
  if c.max_elevation_gt < elevation then
    match _find_aos c tca with
    | .error e => .error e
    | .ok aos => .ok ⟨some aos, tca, some (_find_los c tca), elevation⟩
  else .ok ⟨none, tca, none, elevation⟩

/-- The `PredictedPass` fields the claims are about (the location, the
satellite id and the cached TCA position are omitted). -/
structure PredictedPass where
  max_elevation_deg : ℝ
  aos : ℝ
  los : ℝ
  duration_s : ℝ
  max_elevation_date : ℝ

/-- `_build_predicted_pass(accuratepass)`. -/
def _build_predicted_pass (p : AccuratePredictedPass) : PredictedPass :=
  ⟨p.max_elevation_deg, p.aos.getD 0, p.los.getD 0, p.duration, p.tca⟩

/-- `self.limit_date is not None and self.limit_date < x`. -/
def limit_lt (limit : Option ℝ) (x : ℝ) : Prop :=
  match limit with
  | some l => l < x
  | none => False

/-- How a run of the iterator ends: `break` on the limit date, fuel
exhausted (the generator would keep running), or an exception. -/
inductive IterEnd
  | finished
  | fuelOut
  | failed (e : PassError)

/-- `LocationPredictor.__iter__`, with fuel bounding the number of
while-loop iterations: the list of yielded passes and how the run ended.
Per iteration: if ascending, probe for a descending date, refine, yield
when valid (unless `aos > limit_date` breaks first), `break` when
`current_date > limit_date`, then advance to `tca + orbit_step(0.6)`;
otherwise advance to the nearest ascending probe. -/
def iter_passes (c : LocationPredictor) : ℕ → ℝ → List PredictedPass × IterEnd
  | 0, _ => ([], .fuelOut)
  | n + 1, current_date =>
    if is_ascending c current_date then
      match _find_nearest_descending c current_date with
      | .error e => ([], .failed e)
      | .ok descending_date =>
        match _refine_pass c current_date descending_date with
        | .error e => ([], .failed e)
        | .ok p =>
          if p.valid then
            if limit_lt c.limit_date (p.aos.getD 0) then ([], .finished)
            else
              let tail :=
                if limit_lt c.limit_date current_date then ([], .finished)
                else iter_passes c n (p.tca + _orbit_step c 0.6)
              (_build_predicted_pass p :: tail.1, tail.2)
          else
            if limit_lt c.limit_date current_date then ([], .finished)
            else iter_passes c n (p.tca + _orbit_step c 0.6)
    else
      match _find_nearest_ascending c current_date with
      | .error e => ([], .failed e)
      | .ok t2 => iter_passes c n t2

/-- The final bracket of every bisection loop satisfies the precision
test: the loop stops neither before nor after `end - start ≤ 1`. -/
theorem bisect_loop_precision (P : ℝ → Prop) (s e : ℝ) :
    _precision_reached (bisect_loop P s e).1 (bisect_loop P s e).2 := by
  rw [bisect_loop]
  split_ifs with h1 h2
  · exact h1
  · exact bisect_loop_precision P (midpoint s e) e
  · exact bisect_loop_precision P s (midpoint s e)
termination_by Nat.ceil (e - s)
decreasing_by
  · rw [show e - midpoint s e = (e - s) / 2 by unfold midpoint; ring]
    apply ceil_half_lt
    unfold _precision_reached at h1
    linarith [not_le.mp h1]
  · rw [show midpoint s e - s = (e - s) / 2 by unfold midpoint; ring]
    apply ceil_half_lt
    unfold _precision_reached at h1
    linarith [not_le.mp h1]

/-- The left endpoint of the bracket never moves left. -/
theorem bisect_loop_fst_ge (P : ℝ → Prop) (s e : ℝ) :
    s ≤ (bisect_loop P s e).1 := by
  rw [bisect_loop]
  split_ifs with h1 h2
  · exact le_refl s
  · have hmid : s ≤ midpoint s e := by
      unfold midpoint
      unfold _precision_reached at h1
      have := not_le.mp h1
      linarith
    exact le_trans hmid (bisect_loop_fst_ge P (midpoint s e) e)
  · exact bisect_loop_fst_ge P s (midpoint s e)
termination_by Nat.ceil (e - s)
decreasing_by
  · rw [show e - midpoint s e = (e - s) / 2 by unfold midpoint; ring]
    apply ceil_half_lt
    unfold _precision_reached at h1
    linarith [not_le.mp h1]
  · rw [show midpoint s e - s = (e - s) / 2 by unfold midpoint; ring]
    apply ceil_half_lt
    unfold _precision_reached at h1
    linarith [not_le.mp h1]

/-- The right endpoint of the bracket never moves right. -/
theorem bisect_loop_snd_le (P : ℝ → Prop) (s e : ℝ) :
    (bisect_loop P s e).2 ≤ e := by
  rw [bisect_loop]
  split_ifs with h1 h2
  · exact le_refl e
  · exact bisect_loop_snd_le P (midpoint s e) e
  · have hmid : midpoint s e ≤ e := by
      unfold midpoint
      unfold _precision_reached at h1
      have := not_le.mp h1
      linarith
    exact le_trans (bisect_loop_snd_le P s (midpoint s e)) hmid
termination_by Nat.ceil (e - s)
decreasing_by
  · rw [show e - midpoint s e = (e - s) / 2 by unfold midpoint; ring]
    apply ceil_half_lt
    unfold _precision_reached at h1
    linarith [not_le.mp h1]
  · rw [show midpoint s e - s = (e - s) / 2 by unfold midpoint; ring]
    apply ceil_half_lt
    unfold _precision_reached at h1
    linarith [not_le.mp h1]

/-- The left endpoint of the final bracket satisfies `P` unless it is
still the initial left endpoint ("the last known ascending point"). -/
theorem bisect_loop_fst_P (P : ℝ → Prop) (s e : ℝ) :
    P (bisect_loop P s e).1 ∨ (bisect_loop P s e).1 = s := by
  rw [bisect_loop]
  split_ifs with h1 h2
  · exact Or.inr rfl
  · rcases bisect_loop_fst_P P (midpoint s e) e with h | h
    · exact Or.inl h
    · exact Or.inl (by rw [h]; exact h2)
  · exact bisect_loop_fst_P P s (midpoint s e)
termination_by Nat.ceil (e - s)
decreasing_by
  · rw [show e - midpoint s e = (e - s) / 2 by unfold midpoint; ring]
    apply ceil_half_lt
    unfold _precision_reached at h1
    linarith [not_le.mp h1]
  · rw [show midpoint s e - s = (e - s) / 2 by unfold midpoint; ring]
    apply ceil_half_lt
    unfold _precision_reached at h1
    linarith [not_le.mp h1]

/-- C2.  Every bisection loop of the pass search recurses exactly while
`end - start > 1` second (first conjunct: the loop equation; second: the
final bracket meets the tolerance), `_find_tca` returns the left endpoint
of its final bracket - the last known ascending point (or the unchanged
initial ascending date) - `_find_aos` returns the right endpoint of its
final bracket (after the `assert`), and `_find_los` returns the left
endpoint of its final bracket. -/
theorem bisection_semantics (c : LocationPredictor) (P : ℝ → Prop)
    (s e a d tca : ℝ) :
    (bisect_loop P s e = if _precision_reached s e then (s, e)
      else if P (midpoint s e) then bisect_loop P (midpoint s e) e
      else bisect_loop P s (midpoint s e)) ∧
    _precision_reached (bisect_loop P s e).1 (bisect_loop P s e).2 ∧
    (_find_tca c a d = (bisect_loop (is_ascending c) a d).1 ∧
      (is_ascending c (_find_tca c a d) ∨ _find_tca c a d = a)) ∧
    (_find_aos c tca = if c.elev (tca - _orbit_step c 0.34) < 0
      then .ok (bisect_loop (fun m => c.elev m < c.aos_at)
        (tca - _orbit_step c 0.34) tca).2
      else .error .assertionError) ∧
    (_find_los c tca
      = (bisect_loop (fun m => ¬ (c.elev m < c.aos_at)) tca
          (tca + _orbit_step c 0.34)).1) := by
  refine ⟨?_, bisect_loop_precision P s e, ⟨rfl, bisect_loop_fst_P _ a d⟩, ?_, rfl⟩
  · conv_lhs => rw [bisect_loop]
    rw [dite_eq_ite]
  · simp only [_find_aos]

/-- C3 (amended).  `_sample_points` returns the candidates of the
interval `(t, t + orbit_step(0.99))` in the order `end`, `mid`,
`(mid+end)/2`, `(start+mid)/2` - the two half-quarter points come in the
OPPOSITE order to the one the claim states - and the two probes return
the first candidate (in that order) satisfying the ascending
(respectively descending) predicate, raising `PropagationError` when none
of the four does. -/
theorem sample_points_order (c : LocationPredictor) (t : ℝ) :
    (_sample_points c t = [t + _orbit_step c 0.99,
        midpoint t (t + _orbit_step c 0.99),
        midpoint (midpoint t (t + _orbit_step c 0.99)) (t + _orbit_step c 0.99),
        midpoint t (midpoint t (t + _orbit_step c 0.99))]) ∧
    (_find_nearest_ascending c t = find_first (is_ascending c)
        (_sample_points c t)) ∧
    (_find_nearest_descending c t = find_first (fun x => ¬ is_ascending c x)
        (_sample_points c t)) ∧
    (∀ (Q : ℝ → Prop) (x1 x2 x3 x4 : ℝ),
      find_first Q [x1, x2, x3, x4]
        = if Q x1 then .ok x1
          else if Q x2 then .ok x2
          else if Q x3 then .ok x3
          else if Q x4 then .ok x4
          else .error .propagationError) := by
  refine ⟨rfl, rfl, rfl, ?_⟩
  intro Q x1 x2 x3 x4
  simp only [find_first]

/-- The concrete predictor of the C3 counterexample: a saw-shaped
elevation function and `mean_motion = 6π`, so `orbit_step(0.99) = 19.8`
seconds.  Among the four probe candidates `[19.8, 9.9, 14.85, 4.95]` of
`t = 0`, both 14.85 and 4.95 are ascending and the earlier two are not. -/
def probe_predictor : LocationPredictor :=
  ⟨fun t => if t < 6 then t else if t < 11 then -t else if t < 16 then t else -t,
    6 * π, 0, 0, none⟩

/-- The orbit step of the probe predictor. -/
lemma probe_orbit_step (k : ℝ) : _orbit_step probe_predictor k = 20 * k := by
  unfold _orbit_step probe_predictor
  field_simp
  ring

/-- Ascending probes of the counterexample. -/
lemma probe_asc :
    ¬ is_ascending probe_predictor 19.8 ∧ ¬ is_ascending probe_predictor 9.9 ∧
    is_ascending probe_predictor 14.85 ∧ is_ascending probe_predictor 4.95 := by
  unfold is_ascending probe_predictor
  norm_num

/-- The sample points of the counterexample. -/
lemma probe_sample_points :
    _sample_points probe_predictor 0 = [19.8, 9.9, 14.85, 4.95] ∧
    _sample_points_spec_order probe_predictor 0 = [19.8, 9.9, 4.95, 14.85] := by
  unfold _sample_points _sample_points_spec_order midpoint
  rw [probe_orbit_step]
  norm_num

/-- C3 counterexample.  The claim says the probe evaluates
`end, mid, (start+mid)/2, (mid+end)/2` "in exactly that order" and
returns the first ascending candidate; the code checks `(mid+end)/2`
BEFORE `(start+mid)/2`.  At `t = 0` the code returns 14.85 while the
claimed order would return 4.95. -/
theorem sample_points_order_counterexample :
    _find_nearest_ascending probe_predictor 0 = .ok 14.85 ∧
    find_first (is_ascending probe_predictor)
      (_sample_points_spec_order probe_predictor 0) = .ok 4.95 ∧
    (14.85 : ℝ) ≠ 4.95 := by
  obtain ⟨h1, h2, h3, h4⟩ := probe_asc
  refine ⟨?_, ?_, by norm_num⟩
  · unfold _find_nearest_ascending
    rw [probe_sample_points.1]
    simp only [find_first]
    rw [if_neg (by simpa using h1), if_neg (by simpa using h2), if_pos h3]
  · rw [probe_sample_points.2]
    simp only [find_first]
    rw [if_neg h1, if_neg h2, if_pos h4]

/-- `degrees` preserves positivity. -/
lemma degrees_pos {x : ℝ} (hx : 0 < x) : 0 < degrees x := by
  unfold degrees
  exact div_pos (by nlinarith) Real.pi_pos

/-- A valid refined pass brackets its TCA: the AOS comes from a bisection
whose right endpoint starts at the TCA and the LOS from one whose left
endpoint starts at the TCA. -/
lemma refine_pass_invariant (c : LocationPredictor) (a d : ℝ)
    (p : AccuratePredictedPass) (hp : _refine_pass c a d = .ok p)
    (hv : p.valid) :
    p.aos.getD 0 ≤ p.tca ∧ p.tca ≤ p.los.getD 0 := by
  simp only [_refine_pass] at hp
  by_cases he : c.max_elevation_gt < c.elev (_find_tca c a d)
  · rw [if_pos he] at hp
    cases hfa : _find_aos c (_find_tca c a d) with
    | error err =>
      rw [hfa] at hp
      cases hp
    | ok aosv =>
      rw [hfa] at hp
      injection hp with hp
      subst hp
      constructor
      · show aosv ≤ _find_tca c a d
        simp only [_find_aos] at hfa
        by_cases hassert : c.elev (_find_tca c a d - _orbit_step c 0.34) < 0
        · rw [if_pos hassert] at hfa
          injection hfa with hfa
          rw [← hfa]
          exact bisect_loop_snd_le _ _ _
        · rw [if_neg hassert] at hfa
          cases hfa
      · show _find_tca c a d ≤ _find_los c (_find_tca c a d)
        unfold _find_los
        exact bisect_loop_fst_ge _ _ _
  · rw [if_neg he] at hp
    injection hp with hp
    subst hp
    exact absurd rfl hv.2.1

/-- C1.  Every pass yielded by the `LocationPredictor.__iter__` loop
satisfies `aos ≤ tca ≤ los` (`tca` being `max_elevation_date`) and has
`max_elevation_deg > 0`. -/
theorem pass_invariants (c : LocationPredictor) (fuel : ℕ) (t : ℝ)
    (p : PredictedPass) (hp : p ∈ (iter_passes c fuel t).1) :
    p.aos ≤ p.max_elevation_date ∧ p.max_elevation_date ≤ p.los ∧
    0 < p.max_elevation_deg := by
  induction fuel generalizing t with
  | zero => simp [iter_passes] at hp
  | succ n ih =>
    rw [iter_passes] at hp
    by_cases hasc : is_ascending c t
    · rw [if_pos hasc] at hp
      cases hdesc : _find_nearest_descending c t with
      | error err =>
        simp only [hdesc] at hp
        simp at hp
      | ok dd =>
        simp only [hdesc] at hp
        cases href : _refine_pass c t dd with
        | error err =>
          simp only [href] at hp
          simp at hp
        | ok q =>
          simp only [href] at hp
          by_cases hv : q.valid
          · rw [if_pos hv] at hp
            by_cases hl1 : limit_lt c.limit_date (q.aos.getD 0)
            · rw [if_pos hl1] at hp
              simp at hp
            · rw [if_neg hl1] at hp
              rcases List.mem_cons.mp hp with hpq | hptail
              · subst hpq
                obtain ⟨h1, h2⟩ := refine_pass_invariant c t dd q href hv
                exact ⟨h1, h2, degrees_pos hv.1⟩
              · by_cases hl2 : limit_lt c.limit_date t
                · rw [if_pos hl2] at hptail
                  simp at hptail
                · rw [if_neg hl2] at hptail
                  exact ih _ hptail
          · rw [if_neg hv] at hp
            by_cases hl2 : limit_lt c.limit_date t
            · rw [if_pos hl2] at hp
              simp at hp
            · rw [if_neg hl2] at hp
              exact ih _ hp
    · rw [if_neg hasc] at hp
      cases hna : _find_nearest_ascending c t with
      | error err =>
        simp only [hna] at hp
        simp at hp
      | ok t2 =>
        simp only [hna] at hp
        exact ih _ hp

/-- The concrete predictor of the C1 witness run: elevation
`1 - (t-1)²`, `mean_motion = 60π` (so `orbit_step(k) = 2k` seconds),
thresholds 0, no limit date.  `is_ascending` holds exactly for
`t ≤ 0.5`. -/
def demo_predictor : LocationPredictor :=
  ⟨fun t => 1 - (t - 1)^2, 60 * π, 0, 0, none⟩

/-- The elevation function of the witness predictor. -/
lemma demo_elev (t : ℝ) : demo_predictor.elev t = 1 - (t - 1)^2 := rfl

/-- The witness predictor's orbit step. -/
lemma demo_orbit_step (k : ℝ) : _orbit_step demo_predictor k = 2 * k := by
  unfold _orbit_step demo_predictor
  field_simp
  ring

/-- Ascending exactly up to the apex probe point. -/
lemma demo_asc_iff (t : ℝ) : is_ascending demo_predictor t ↔ t ≤ 0.5 := by
  simp only [is_ascending, demo_predictor]
  constructor
  · intro h
    nlinarith
  · intro h
    nlinarith

/-- The sample points of the witness run at `t = 0.5`. -/
lemma demo_sample_points :
    _sample_points demo_predictor 0.5 = [2.48, 1.49, 1.985, 0.995] := by
  unfold _sample_points midpoint
  rw [demo_orbit_step]
  norm_num

/-- The descending probe of the witness run: the first candidate wins. -/
lemma demo_desc : _find_nearest_descending demo_predictor 0.5 = .ok 2.48 := by
  unfold _find_nearest_descending
  rw [demo_sample_points]
  simp only [find_first]
  rw [if_pos (by rw [demo_asc_iff]; norm_num)]

/-- The TCA bisection of the witness run: one halving step then stop. -/
lemma demo_tca : _find_tca demo_predictor 0.5 2.48 = 0.5 := by
  unfold _find_tca
  have h1 : bisect_loop (is_ascending demo_predictor) 0.5 2.48
      = bisect_loop (is_ascending demo_predictor) 0.5 1.49 := by
    rw [bisect_loop]
    rw [dif_neg (by unfold _precision_reached; norm_num)]
    rw [show midpoint 0.5 2.48 = 1.49 by unfold midpoint; norm_num]
    rw [if_neg (by rw [demo_asc_iff]; norm_num)]
  have h2 : bisect_loop (is_ascending demo_predictor) 0.5 1.49 = (0.5, 1.49) := by
    rw [bisect_loop]
    rw [dif_pos (by unfold _precision_reached; norm_num)]
  rw [h1, h2]

/-- The AOS of the witness run: the assert passes and the bracket is
already within tolerance. -/
lemma demo_aos : _find_aos demo_predictor 0.5 = .ok 0.5 := by
  simp only [_find_aos]
  rw [demo_orbit_step, demo_elev]
  rw [if_pos (by norm_num)]
  rw [bisect_loop]
  rw [dif_pos (by unfold _precision_reached; norm_num)]

/-- The LOS of the witness run. -/
lemma demo_los : _find_los demo_predictor 0.5 = 0.5 := by
  unfold _find_los
  rw [demo_orbit_step]
  rw [bisect_loop]
  rw [dif_pos (by unfold _precision_reached; norm_num)]

/-- The refined pass of the witness run. -/
lemma demo_refine : _refine_pass demo_predictor 0.5 2.48
    = .ok ⟨some 0.5, 0.5, some 0.5, 0.75⟩ := by
  simp only [_refine_pass]
  rw [demo_tca, demo_elev]
  rw [if_pos (by
    show demo_predictor.max_elevation_gt < 1 - ((0.5:ℝ) - 1)^2
    rw [show demo_predictor.max_elevation_gt = 0 from rfl]
    norm_num)]
  rw [demo_aos, demo_los]
  norm_num

/-- The witness pass: `aos = tca = los = 0.5`, max elevation 0.75 rad. -/
def demo_pass : PredictedPass := ⟨degrees 0.75, 0.5, 0.5, 0, 0.5⟩

/-- The refined pass of the witness run is valid. -/
lemma demo_valid : (⟨some 0.5, 0.5, some 0.5, 0.75⟩ : AccuratePredictedPass).valid :=
  ⟨by norm_num, by simp, by simp⟩

/-- First iteration of the witness run: yields the pass and moves the
cursor to `tca + orbit_step(0.6) = 1.7`. -/
lemma demo_iter_succ (n : ℕ) :
    iter_passes demo_predictor (n + 1) 0.5
      = (demo_pass :: (iter_passes demo_predictor n 1.7).1,
         (iter_passes demo_predictor n 1.7).2) := by
  have hasc : is_ascending demo_predictor 0.5 := (demo_asc_iff 0.5).mpr (by norm_num)
  have hld : demo_predictor.limit_date = none := rfl
  rw [iter_passes, if_pos hasc]
  simp only [demo_desc, demo_refine]
  rw [if_pos demo_valid]
  simp only [hld, limit_lt, if_false, demo_orbit_step]
  unfold demo_pass _build_predicted_pass AccuratePredictedPass.max_elevation_deg
    AccuratePredictedPass.duration
  norm_num

/-- Sample points of the witness run at `t = 1.7`. -/
lemma demo_sample_points_17 :
    _sample_points demo_predictor 1.7 = [3.68, 2.69, 3.185, 2.195] := by
  unfold _sample_points midpoint
  rw [demo_orbit_step]
  norm_num

/-- At `t = 1.7` no probe candidate is ascending: `PropagationError`. -/
lemma demo_asc_fail :
    _find_nearest_ascending demo_predictor 1.7 = .error .propagationError := by
  unfold _find_nearest_ascending
  rw [demo_sample_points_17]
  simp only [find_first]
  rw [if_neg (by rw [demo_asc_iff]; norm_num),
    if_neg (by rw [demo_asc_iff]; norm_num),
    if_neg (by rw [demo_asc_iff]; norm_num),
    if_neg (by rw [demo_asc_iff]; norm_num)]

/-- Second iteration of the witness run: the search fails to find a new
ascending phase and raises `PropagationError`. -/
lemma demo_iter_fail (n : ℕ) :
    iter_passes demo_predictor (n + 1) 1.7 = ([], .failed .propagationError) := by
  have hnasc : ¬ is_ascending demo_predictor 1.7 := by
    rw [demo_asc_iff]
    norm_num
  rw [iter_passes, if_neg hnasc]
  simp only [demo_asc_fail]

/-- The full witness run with fuel 2. -/
lemma demo_run : iter_passes demo_predictor 2 0.5
    = ([demo_pass], .failed .propagationError) := by
  have h1 := demo_iter_succ 1
  rw [demo_iter_fail 0] at h1
  simpa using h1

/-- C1 witness: the invariant theorem applied to the pass yielded by the
concrete two-iteration run. -/
theorem pass_invariants_witness :
    demo_pass ∈ (iter_passes demo_predictor 2 0.5).1 ∧
    (demo_pass.aos ≤ demo_pass.max_elevation_date ∧
     demo_pass.max_elevation_date ≤ demo_pass.los ∧
     0 < demo_pass.max_elevation_deg) := by
  have hmem : demo_pass ∈ (iter_passes demo_predictor 2 0.5).1 := by
    rw [demo_run]
    exact List.mem_singleton_self _
  exact ⟨hmem, pass_invariants demo_predictor 2 0.5 demo_pass hmem⟩

end OrbitPredictor
